import Mathlib

/-!
Verification development for `openqaoa/derivative_functions.py`.

The file gives a shallow embedding of the derivative-estimation core of the
repository.  Floating-point arithmetic is modelled by an arbitrary linear
ordered field `K` (instantiated with `ℚ` for concrete evaluations); the float
constant `np.pi` enters the parameter-shift estimators as an abstract
parameter `pi : K`.  The backend, the per-outcome cost function, the
standard-to-extended parameter conversion and the random sources are external
collaborators of the module and enter as function parameters.  Python
exceptions (assertion errors, `ValueError`, `TypeError`, numpy broadcast
errors) are modelled with `Except String`.  The two evaluation counters of
the logger are the state threaded through every backend call.
-/

namespace OQDeriv

/-- The two monotone counters kept by the external logger:
`func_evals` and `jac_func_evals` (read through `logger.func_evals.best[0]`
and `logger.jac_func_evals.best[0]` and written back via `log_variables`). -/
structure LogState where
  funcEvals : ℕ
  jacFuncEvals : ℕ
  deriving DecidableEq, Repr

/-- Python truthiness of an optional integer (`None` and `0` are falsy). -/
def pyTruthy : Option ℤ → Bool
  | none => false
  | some k => k ≠ 0

/-- Line 62/105 of the source: the keyword dictionary
`dict of n_shots if n_shots else empty dict`.  The backend receives the
`n_shots` keyword exactly when the provided value is truthy; otherwise the
call carries no `n_shots` argument, modelled as `none`. -/
def nShotsKw (n : Option ℤ) : Option ℤ :=
  if pyTruthy n then n else none

/-- The external backend collaborator: a scalar expectation value and a raw
measurement-outcome histogram (an insertion-ordered association list
`outcome ↦ count`, outcomes abstracted as `ℕ`), both functions of the raw
angle vector (the parameter container is overwritten from the raw arguments
immediately before each call, so the call is a pure function of them) and of
the optionally forwarded shot number.  `costF` is the external
`cost_function` evaluated on a single outcome
(`cost_function (single-outcome histogram) hamiltonian alpha`). -/
structure Backend (K : Type) where
  expectation : List K → Option ℤ → K
  getCounts : List K → Option ℤ → List (ℕ × ℕ)
  costF : ℕ → K

variable {K : Type} [LinearOrderedField K]

/-- `update_and_compute_expectation(backend_obj, params, logger)` applied to
`(args, n_shots)`: bumps both logger counters by one, updates the parameter
container from `args` and asks the backend for the expectation value,
forwarding `n_shots` only when truthy. -/
def update_and_compute_expectation (be : Backend K) (args : List K)
    (nShots : Option ℤ) (s : LogState) : K × LogState :=
  (be.expectation args (nShotsKw nShots), ⟨s.funcEvals + 1, s.jacFuncEvals + 1⟩)

/-- `update_and_get_counts(backend_obj, params, logger)` applied to
`(args, n_shots)`: identical bookkeeping, but returns the outcome histogram. -/
def update_and_get_counts (be : Backend K) (args : List K)
    (nShots : Option ℤ) (s : LogState) : List (ℕ × ℕ) × LogState :=
  (be.getCounts args (nShotsKw nShots), ⟨s.funcEvals + 1, s.jacFuncEvals + 1⟩)

/-- Elementwise vector addition (numpy `+` on equal-length 1-d arrays). -/
def vadd (a b : List K) : List K := List.zipWith (· + ·) a b

/-- Elementwise vector subtraction (numpy `-` on equal-length 1-d arrays). -/
def vsub (a b : List K) : List K := List.zipWith (· - ·) a b

/-- Scalar times vector (numpy scalar `*` array). -/
def smulV (c : K) (v : List K) : List K := v.map (c * ·)

/-- `np.zeros(n)` as a list. -/
def zeroVec (n : ℕ) : List K := List.replicate n 0

/-- Lines 291-292 of the source: expand a histogram into one scalar cost per
individual shot, in histogram order (`costs_dict[key]` repeated `value`
times for each entry; the memoisation of `costs_dict` is a pure
performance device and is semantically the per-outcome cost function). -/
def countsToShotCosts (costF : ℕ → K) (counts : List (ℕ × ℕ)) : List K :=
  (counts.map (fun kv => List.replicate kv.2 (costF kv.1))).flatten

/-- numpy subtraction of two 1-d arrays, including the broadcasting rule:
shapes `(n,)` and `(m,)` are compatible iff `n = m` or `n = 1` or `m = 1`;
otherwise a broadcast `ValueError` is raised. -/
def npBroadcastSub (a b : List K) : Except String (List K) :=
  if a.length = b.length then .ok (List.zipWith (· - ·) a b)
  else if a.length = 1 then .ok (b.map (fun y => a.getD 0 0 - y))
  else if b.length = 1 then .ok (a.map (fun x => x - b.getD 0 0))
  else .error "operands could not be broadcast together"

/-- `np.mean` of a 1-d array (division in `K`; `0/0 = 0` stands in for the
`nan` numpy emits on an empty array). -/
def npMean (l : List K) : K := l.sum / l.length

/-- `np.var` of a 1-d array (population variance, `ddof = 0`). -/
def npVar (l : List K) : K :=
  ((l.map (fun x => (x - npMean l) ^ 2)).sum) / l.length

/-- The counts-mode branch `fun_w_variance` of `__gradient`: histograms at
`args - vect_eta` (first) and `args + vect_eta` (second), per-shot cost lists,
per-shot gradient samples `constant * (eval_f - eval_i)` (numpy subtraction,
hence broadcasting), and the pair `(np.mean, np.var)` of that sample list. -/
def fun_w_variance (be : Backend K) (args vect_eta : List K) (c : K)
    (nShots : Option ℤ) (s : LogState) : Except String (K × K) × LogState :=
  let ci := update_and_get_counts be (vsub args vect_eta) nShots s
  let cf := update_and_get_counts be (vadd args vect_eta) nShots ci.2
  let eval_i := countsToShotCosts be.costF ci.1
  let eval_f := countsToShotCosts be.costF cf.1
  match npBroadcastSub eval_f eval_i with
  | .error e => (.error e, cf.2)
  | .ok d =>
    let grad_list := smulV c d
    (.ok (npMean grad_list, npVar grad_list), cf.2)

/-- The expectation-mode branch `fun` of `__gradient`:
`constant * (f(args + vect_eta) - f(args - vect_eta))` with two expectation
calls (forward first), paired with a variance of `0`. -/
def fun_expectation (be : Backend K) (args vect_eta : List K) (c : K)
    (nShots : Option ℤ) (s : LogState) : (K × K) × LogState :=
  let ef := update_and_compute_expectation be (vadd args vect_eta) nShots s
  let ei := update_and_compute_expectation be (vsub args vect_eta) nShots ef.2
  ((c * (ef.1 - ei.1), 0), ei.2)

/-- `__gradient(args, backend_obj, params, logger, variance)`: dispatch on the
`variance` flag between the two kernel branches. -/
def gradientKernel (variance : Bool) (be : Backend K) (args vect_eta : List K)
    (c : K) (nShots : Option ℤ) (s : LogState) :
    Except String (K × K) × LogState :=
  if variance then fun_w_variance be args vect_eta c nShots s
  else
    let r := fun_expectation be args vect_eta c nShots s
    (.ok r.1, r.2)

/-- The per-direction loop shared by `grad_fd_func` and `grad_ps_func`: one
kernel call per item `(vect_eta, constant, n_shots)`, threading the logger
state in program order; a Python exception inside an iteration aborts the
loop with the logger state reached so far. -/
def runShiftLoop (variance : Bool) (be : Backend K) (args : List K) :
    List (List K × K × Option ℤ) → LogState →
    Except String (List (K × K)) × LogState
  | [], s => (.ok [], s)
  | it :: rest, s =>
    match gradientKernel variance be args it.1 it.2.1 it.2.2 s with
    | (.error e, s1) => (.error e, s1)
    | (.ok gv, s1) =>
      match runShiftLoop variance be args rest s1 with
      | (.error e, s2) => (.error e, s2)
      | (.ok gvs, s2) => (.ok (gv :: gvs), s2)

/-- Contribution of one extended index to `n_shots_used` in `grad_sps_func`
(line 527): `2 * n_shots_list[i]` when a shot count is present, else `0`. -/
def spsShotAdd : Option ℤ → ℤ
  | some k => 2 * k
  | none => 0

/-- The masked per-direction loop of `grad_sps_func`: items carry a flag
`i ∈ sampled_indices`; unflagged items keep the zero-initialised gradient and
variance entries and allocate no shots. -/
def runSPSLoop (variance : Bool) (be : Backend K) (args : List K) :
    List (Bool × List K × K × Option ℤ) → LogState →
    Except String (List (K × K) × ℤ) × LogState
  | [], s => (.ok ([], 0), s)
  | it :: rest, s =>
    if it.1 then
      match gradientKernel variance be args it.2.1 it.2.2.1 it.2.2.2 s with
      | (.error e, s1) => (.error e, s1)
      | (.ok gv, s1) =>
        match runSPSLoop variance be args rest s1 with
        | (.error e, s2) => (.error e, s2)
        | (.ok gvs, s2) => (.ok (gv :: gvs.1, spsShotAdd it.2.2.2 + gvs.2), s2)
    else
      match runSPSLoop variance be args rest s with
      | (.error e, s1) => (.error e, s1)
      | (.ok gvs, s1) => (.ok ((0, 0) :: gvs.1, gvs.2), s1)

/-- The `n_shots` argument of an estimator call: absent (`None`), a single
integer, or a per-standard-parameter list of integers. -/
inductive NShotsArg where
  | omitted
  | int (n : ℤ)
  | list (l : List ℤ)
  deriving DecidableEq, Repr

/-- `__create_n_shots_list(n_params, n_shots)`: a list keeps its identity but
must have length `n_params`; an integer or an absent value is broadcast to a
list of length `n_params` (absent entries mean "backend default"). -/
def create_n_shots_list (nParams : ℕ) : NShotsArg → Except String (List (Option ℤ))
  | .list l =>
    if l.length = nParams then .ok (l.map some)
    else .error "n_shots must be a list of length equal to the number of parameters."
  | .int n => .ok (List.replicate nParams (some n))
  | .omitted => .ok (List.replicate nParams none)

/-- `n_shots.reshape(2, len//2).repeat(2, axis=0).reshape(2*len)` on a 1-d
array of even length: the first half and the second half each repeated twice,
`[b, g] ↦ [b, b, g, g]`. -/
def repeatHalves (l : List ℤ) : List ℤ :=
  let h := l.length / 2
  l.take h ++ l.take h ++ l.drop h ++ l.drop h

/-- `__create_n_shots_ext_list(n_params, n_associated_params, n_shots)`:
an integer or absent value is broadcast over all `sum n_associated_params`
extended parameters; a list must have length `n_params`, is doubled per half
(`reshape/repeat`, requiring an even length as numpy does) and each resulting
per-coefficient shot number is repeated over the extended gates associated
with that coefficient (`zip` truncates to the shorter list, as in Python). -/
def create_n_shots_ext_list (nParams : ℕ) (nAssoc : List ℕ) :
    NShotsArg → Except String (List (Option ℤ))
  | .list l =>
    if l.length = nParams then
      if l.length % 2 = 0 then
        .ok ((List.zipWith (fun r sh => List.replicate r (some sh)) nAssoc
          (repeatHalves l)).flatten)
      else .error "cannot reshape array"
    else .error "n_shots must be a list of length equal to the number of parameters."
  | .int n => .ok (List.replicate nAssoc.sum (some n))
  | .omitted => .ok (List.replicate nAssoc.sum none)

/-- Python `sum` over a list that may hold `None` entries: any `None` raises
a `TypeError` (`int + NoneType`); otherwise the integer sum. -/
def pySumShots (l : List (Option ℤ)) : Except String ℤ :=
  if l.all (fun x => x.isSome) then
    .ok (l.foldl (fun acc x => acc + x.getD 0) 0)
  else .error "unsupported operand type for + of int and NoneType"

/-- Result of one estimator call: a plain gradient, a gradient with variance
and total shots used, or a Hessian matrix. -/
inductive GradReturn (K : Type) where
  | grad (g : List K)
  | gradVar (g v : List K) (shotsUsed : ℤ)
  | hess (m : List (List K))
  deriving DecidableEq

/-- The standard-parametrisation container capability consumed by the
estimators: layer count `p`, the four per-layer coefficient lists, and the
external standard-to-extended conversion `convert_to_ext`. -/
structure StdParams (K : Type) where
  p : ℕ
  mixer_1q_coeffs : List K
  mixer_2q_coeffs : List K
  cost_1q_coeffs : List K
  cost_2q_coeffs : List K
  convert_to_ext : List K → List K

/-- Python `n * list` (the list repeated `n` times). -/
def pyListMul (n : ℕ) (l : List α) : List α := (List.replicate n l).flatten

/-- Line 394/486: `p*mixer_1q_coeffs + p*mixer_2q_coeffs + p*cost_1q_coeffs +
p*cost_2q_coeffs`, the extended-parameter coefficient list laid out family by
family, each repeated across the `p` layers. -/
def coeffsList (ps : StdParams K) : List K :=
  pyListMul ps.p ps.mixer_1q_coeffs ++ pyListMul ps.p ps.mixer_2q_coeffs ++
    pyListMul ps.p ps.cost_1q_coeffs ++ pyListMul ps.p ps.cost_2q_coeffs

/-- Line 397/492: `np.repeat([len(mixer_1q), len(mixer_2q), len(cost_1q),
len(cost_2q)], p)` — how many extended parameters belong to each of the `4*p`
(family, layer) coefficients. -/
def nAssociatedParams (ps : StdParams K) : List ℕ :=
  List.replicate ps.p ps.mixer_1q_coeffs.length ++
    List.replicate ps.p ps.mixer_2q_coeffs.length ++
    List.replicate ps.p ps.cost_1q_coeffs.length ++
    List.replicate ps.p ps.cost_2q_coeffs.length

/-- Line 399/494: `np.insert(np.cumsum(ns), 0, 0)` — cumulative group
boundaries, `cumIdx ns !! i = sum of the first i entries of ns`. -/
def cumIdx (ns : List ℕ) : List ℕ :=
  (List.range (ns.length + 1)).map (fun i => (ns.take i).sum)

/-- Python slice `xs[lo:hi]` for non-negative bounds (empty when `lo ≥ hi`,
clamped at the list length). -/
def pySlice (xs : List K) (lo hi : ℕ) : List K := (xs.drop lo).take (hi - lo)

/-- Line 427/431 (and 531/535) as written in the source:
`[np.sum(x[l[i-1]:l[i]]) for i in range(0, len(l)-1)]`.  At `i = 0` the
Python index `l[i-1]` is `l[-1]`, the LAST entry of `l`, so the first slice
is `x[l[-1]:0]`, which is empty. -/
def codeGroupSums (l : List ℕ) (xs : List K) : List K :=
  (List.range (l.length - 1)).map (fun i =>
    (pySlice xs (if i = 0 then l.getD (l.length - 1) 0 else l.getD (i - 1) 0)
      (l.getD i 0)).sum)

/-- The aggregation stated by the specification (and by the source's own
comment on line 399: "the i-th coefficient is associated with extended
parameters with indices in range [l[i], l[i+1]]"): entry `i` sums exactly the
extended entries of group `i`.  Written from the words of the spec, for
comparison with `codeGroupSums`, which embeds the loop as coded. -/
def specGroupSums (l : List ℕ) (xs : List K) : List K :=
  (List.range (l.length - 1)).map (fun i =>
    (pySlice xs (l.getD i 0) (l.getD (i + 1) 0)).sum)

/-- Lines 429/432: `reshape(4, p)` followed by summing row 0 with row 1
(mixer 1q + mixer 2q) and row 2 with row 3 (cost 1q + cost 2q), concatenated
to the standard layout (betas then gammas). -/
def sumFamilies (p : ℕ) (g : List K) : List K :=
  List.zipWith (· + ·) (g.take p) ((g.drop p).take p) ++
    List.zipWith (· + ·) ((g.drop (2 * p)).take p) ((g.drop (3 * p)).take p)

/-- One iteration payload of the parameter-shift loop (lines 419-423): for
extended index `i` with coefficient `r = coeffs_list[i]`, the perturbation
vector is zero except for `π/(4r)` in slot `i`, the scale is `r`, and the
shot count is `n_shots_list[i]`. -/
def psShiftItem (pi : K) (cl : List K) (argsExt : List K)
    (nList : List (Option ℤ)) (i : ℕ) : List K × K × Option ℤ :=
  let r := cl.getD i 0
  ((zeroVec argsExt.length).set i (pi / (4 * r)), r, nList.getD i none)

/-- `grad_fd_func(args, n_shots)`: per-parameter central differences with
perturbation `eta/2` in one slot and scale `1/eta`; in variance mode the
returned shot total is `2 * sum(n_shots_list)` (a Python `sum`, raising on
`None` entries). -/
def grad_fd_func (be : Backend K) (eta : K) (variance : Bool) (args : List K)
    (nShots : NShotsArg) (s : LogState) :
    Except String (GradReturn K) × LogState :=
  match create_n_shots_list args.length nShots with
  | .error e => (.error e, s)
  | .ok nList =>
    match runShiftLoop variance be args
        ((List.range args.length).map (fun i =>
          ((zeroVec args.length).set i (eta / 2), 1 / eta, nList.getD i none))) s with
    | (.error e, s1) => (.error e, s1)
    | (.ok gvs, s1) =>
      if variance then
        match pySumShots nList with
        | .error e => (.error e, s1)
        | .ok tot =>
          (.ok (.gradVar (gvs.map Prod.fst) (gvs.map Prod.snd) (2 * tot)), s1)
      else (.ok (.grad (gvs.map Prod.fst)), s1)

/-- `grad_ps_func(args, n_shots)`: convert the standard arguments to extended
form, shift each extended direction by `π/(4r)` with scale `r`, then
aggregate the extended gradients (and variances) back to standard form via
`codeGroupSums` and `sumFamilies`; in variance mode the shot total is
`2 * sum(n_shots_list)` over the extended allocation. -/
def grad_ps_func (pi : K) (be : Backend K) (ps : StdParams K) (variance : Bool)
    (args : List K) (nShots : NShotsArg) (s : LogState) :
    Except String (GradReturn K) × LogState :=
  let args_ext := ps.convert_to_ext args
  let stdCheck : Except String Unit :=
    if variance then (create_n_shots_list args.length nShots).map (fun _ => ())
    else .ok ()
  match stdCheck with
  | .error e => (.error e, s)
  | .ok _ =>
    match create_n_shots_ext_list args.length (nAssociatedParams ps) nShots with
    | .error e => (.error e, s)
    | .ok nList =>
      match runShiftLoop variance be args_ext
          ((List.range args_ext.length).map
            (psShiftItem pi (coeffsList ps) args_ext nList)) s with
      | (.error e, s1) => (.error e, s1)
      | (.ok gvs, s1) =>
        let l := cumIdx (nAssociatedParams ps)
        let grad := sumFamilies ps.p (codeGroupSums l (gvs.map Prod.fst))
        let var := sumFamilies ps.p (codeGroupSums l (gvs.map Prod.snd))
        if variance then
          match pySumShots nList with
          | .error e => (.error e, s1)
          | .ok tot => (.ok (.gradVar grad var (2 * tot)), s1)
        else (.ok (.grad grad), s1)

/-- The four per-layer family sizes `[len(mixer_1q), len(mixer_2q),
len(cost_1q), len(cost_2q)]` — the sample sizes that make the stochastic
estimator equivalent to the full parameter shift (line 478). -/
def familyMaxes (ps : StdParams K) : List ℕ :=
  [ps.mixer_1q_coeffs.length, ps.mixer_2q_coeffs.length,
    ps.cost_1q_coeffs.length, ps.cost_2q_coeffs.length]

/-- The four stochastic sample sizes from the options mapping. -/
structure SPSSizes where
  n_beta_single : ℤ
  n_beta_pair : ℤ
  n_gamma_single : ℤ
  n_gamma_pair : ℤ
  deriving DecidableEq, Repr

/-- The sample sizes in option order `[n_beta_single, n_beta_pair,
n_gamma_single, n_gamma_pair]` (line 474-475). -/
def spsSizeList (o : SPSSizes) : List ℤ :=
  [o.n_beta_single, o.n_beta_pair, o.n_gamma_single, o.n_gamma_pair]

/-- Lines 481-483 of `grad_sps` (run at factory time): each sample size must
satisfy `-1 ≤ x ≤ family maximum`; a `-1` is then replaced by the maximum. -/
def grad_sps_validate (ps : StdParams K) (o : SPSSizes) : Except String (List ℕ) :=
  if (List.zip (spsSizeList o) (familyMaxes ps)).all
      (fun xy => decide (-1 ≤ xy.1 ∧ xy.1 ≤ (xy.2 : ℤ))) then
    .ok (List.zipWith (fun x (y : ℕ) => if x = -1 then y else x.toNat)
      (spsSizeList o) (familyMaxes ps))
  else .error "Invalid stochastic parameter-shift sample size"

/-- Lines 511-514: for each of the `4*p` (family, layer) groups, draw
`n_associated_params[i]` indices without replacement from
`range(l[i], l[i+1])`; `choose lo hi n` is the external random draw. -/
def sps_sampled (ps : StdParams K) (nRes : List ℕ)
    (choose : ℕ → ℕ → ℕ → List ℕ) : List ℕ :=
  let l := cumIdx (nAssociatedParams ps)
  let nAssocSampled := (nRes.map (fun x => List.replicate ps.p x)).flatten
  ((List.range nAssocSampled.length).map (fun i =>
    choose (l.getD i 0) (l.getD (i + 1) 0) (nAssocSampled.getD i 0))).flatten

/-- `grad_sps_func(args, n_shots)`: as `grad_ps_func`, but only the sampled
extended indices are shifted (the rest keep the zero-initialised gradient and
variance and allocate no shots); the returned shot total is the accumulated
`n_shots_used` over sampled indices only. -/
def grad_sps_func (pi : K) (be : Backend K) (ps : StdParams K) (nRes : List ℕ)
    (choose : ℕ → ℕ → ℕ → List ℕ) (variance : Bool) (args : List K)
    (nShots : NShotsArg) (s : LogState) :
    Except String (GradReturn K) × LogState :=
  let args_ext := ps.convert_to_ext args
  let stdCheck : Except String Unit :=
    if variance then (create_n_shots_list args.length nShots).map (fun _ => ())
    else .ok ()
  match stdCheck with
  | .error e => (.error e, s)
  | .ok _ =>
    match create_n_shots_ext_list args.length (nAssociatedParams ps) nShots with
    | .error e => (.error e, s)
    | .ok nList =>
      let sampled := sps_sampled ps nRes choose
      match runSPSLoop variance be args_ext
          ((List.range args_ext.length).map (fun i =>
            (decide (i ∈ sampled), psShiftItem pi (coeffsList ps) args_ext nList i))) s with
      | (.error e, s1) => (.error e, s1)
      | (.ok gvs, s1) =>
        let l := cumIdx (nAssociatedParams ps)
        let grad := sumFamilies ps.p (codeGroupSums l (gvs.1.map Prod.fst))
        let var := sumFamilies ps.p (codeGroupSums l (gvs.1.map Prod.snd))
        if variance then (.ok (.gradVar grad var gvs.2), s1)
        else (.ok (.grad grad), s1)

/-- `grad_spsa_func(args, n_shots)`: a single joint Rademacher perturbation
`delta * eta/2` with scale `1/eta`; the gradient estimate is `g * delta`, the
variance `v * |delta|`, and the shot total `2 * n_shots` (a Python product
raising a `TypeError` when `n_shots` is `None`).  `randbits n` models
`np.random.randint(0, 2, size=n)`.  The estimator is modelled for a scalar or
absent `n_shots` (its Python signature never receives a per-parameter list). -/
def grad_spsa_func (be : Backend K) (eta : K) (randbits : ℕ → List ℤ)
    (variance : Bool) (args : List K) (nShotsA : NShotsArg) (s : LogState) :
    Except String (GradReturn K) × LogState :=
  match nShotsA with
  | .list _ =>
    (.error "modelling restriction: grad_spsa receives a scalar or absent n_shots", s)
  | _ =>
    let nShots : Option ℤ := match nShotsA with | .int n => some n | _ => none
    let delta : List ℤ := (randbits args.length).map (fun b => 2 * b - 1)
    let vector_eta : List K := delta.map (fun d => (d : K) * eta / 2)
    match gradientKernel variance be args vector_eta (1 / eta) nShots s with
    | (.error e, s1) => (.error e, s1)
    | (.ok gv, s1) =>
      if variance then
        match nShots with
        | some k =>
          (.ok (.gradVar (delta.map (fun d => gv.1 * (d : K)))
            (delta.map (fun d => gv.2 * |(d : K)|)) (2 * k)), s1)
        | none => (.error "unsupported operand type for int times NoneType", s1)
      else (.ok (.grad (delta.map (fun d => gv.1 * (d : K)))), s1)

/-- One Hessian entry (lines 626-633), threading the logger state through the
expectation calls in source order: the 5-point central stencil on the
diagonal, the 4-point mixed stencil off the diagonal, where `vect_eta1` and
`vect_eta2` are the unit vectors of slots `i` and `j`. -/
def hessEntryS (be : Backend K) (eta : K) (args : List K) (i j : ℕ)
    (s : LogState) : K × LogState :=
  let v1 : List K := (zeroVec args.length).set i 1
  let v2 : List K := (zeroVec args.length).set j 1
  if i = j then
    let a := update_and_compute_expectation be (vadd args (smulV (2 * eta) v1)) none s
    let b := update_and_compute_expectation be (vadd args (smulV eta v1)) none a.2
    let c0 := update_and_compute_expectation be args none b.2
    let d := update_and_compute_expectation be (vsub args (smulV eta v1)) none c0.2
    let e := update_and_compute_expectation be (vsub args (smulV (2 * eta) v1)) none d.2
    ((-a.1 + 16 * b.1 - 30 * c0.1 + 16 * d.1 - e.1) / (12 * eta ^ 2), e.2)
  else
    let a := update_and_compute_expectation be
      (vadd (vadd args (smulV eta v1)) (smulV eta v2)) none s
    let b := update_and_compute_expectation be
      (vsub (vadd args (smulV eta v1)) (smulV eta v2)) none a.2
    let c0 := update_and_compute_expectation be
      (vadd (vsub args (smulV eta v1)) (smulV eta v2)) none b.2
    let d := update_and_compute_expectation be
      (vsub (vsub args (smulV eta v1)) (smulV eta v2)) none c0.2
    ((a.1 - b.1 - c0.1 + d.1) / (4 * eta ^ 2), d.2)

/-- One row of the Hessian loop (inner `for j` loop). -/
def hessRowS (be : Backend K) (eta : K) (args : List K) (i : ℕ) :
    List ℕ → LogState → List K × LogState
  | [], s => ([], s)
  | j :: js, s =>
    let e := hessEntryS be eta args i j s
    let r := hessRowS be eta args i js e.2
    (e.1 :: r.1, r.2)

/-- The outer `for i` loop of the Hessian. -/
def hessMatS (be : Backend K) (eta : K) (args : List K) :
    List ℕ → LogState → List (List K) × LogState
  | [], s => ([], s)
  | i :: rest, s =>
    let r := hessRowS be eta args i (List.range args.length) s
    let m := hessMatS be eta args rest r.2
    (r.1 :: m.1, m.2)

/-- `hessian_fd_func(args)`: the dense `n × n` finite-difference Hessian. -/
def hessian_fd_func (be : Backend K) (eta : K) (args : List K) (s : LogState) :
    List (List K) × LogState :=
  hessMatS be eta args (List.range args.length) s

/-- The recognised options of the factory (defaults: `stepsize = 1e-5`, all
four stochastic sample sizes `-1`). -/
structure DerivOptions (K : Type) where
  stepsize : K
  n_beta_single : ℤ
  n_beta_pair : ℤ
  n_gamma_single : ℤ
  n_gamma_pair : ℤ

/-- `default_derivative_options` of line 144-148. -/
def default_derivative_options : DerivOptions K :=
  ⟨1 / 100000, -1, -1, -1, -1⟩

/-- The stochastic sample sizes drawn from the options mapping. -/
def optsSizes (o : DerivOptions K) : SPSSizes :=
  ⟨o.n_beta_single, o.n_beta_pair, o.n_gamma_single, o.n_gamma_pair⟩

/-- The valid `derivative_type` values (line 157). -/
def derivative_types : List String := ["gradient", "gradient_w_variance", "hessian"]

/-- The valid `derivative_method` values (line 162). -/
def derivative_methods : List String :=
  ["finite_difference", "param_shift", "stoch_param_shift", "grad_spsa"]

/-- The factory `derivative(backend_obj, params, logger, derivative_type,
derivative_method, derivative_options)`: validates the type, the method, the
parametrisation class for (stochastic) parameter shift and the stochastic
sample sizes, and returns the bound estimator closure.  `className` is the
runtime class name of the parameter container; `choose` and `randbits` are
the ambient random sources. -/
def derivative (pi : K) (be : Backend K) (ps : StdParams K) (className : String)
    (choose : ℕ → ℕ → ℕ → List ℕ) (randbits : ℕ → List ℤ)
    (derivative_type derivative_method : String) (opts : DerivOptions K) :
    Except String
      (List K → NShotsArg → LogState → Except String (GradReturn K) × LogState) :=
  if derivative_type ∉ derivative_types then
    .error "Unknown derivative type specified - please choose between the valid types"
  else if derivative_method ∉ derivative_methods then
    .error "Unknown derivative computation method specified - please choose between the valid methods"
  else if derivative_type = "gradient" ∨ derivative_type = "gradient_w_variance" then
    let variance := derivative_type = "gradient_w_variance"
    if derivative_method = "finite_difference" then
      .ok (grad_fd_func be opts.stepsize variance)
    else if derivative_method = "param_shift" then
      if className = "QAOAVariationalStandardParams" then
        .ok (grad_ps_func pi be ps variance)
      else .error (className ++ " not supported - only Standard Parametrisation is supported for parameter shift/stochastic parameter shift for now.")
    else if derivative_method = "stoch_param_shift" then
      if className = "QAOAVariationalStandardParams" then
        match grad_sps_validate ps (optsSizes opts) with
        | .error e => .error e
        | .ok nRes => .ok (grad_sps_func pi be ps nRes choose variance)
      else .error (className ++ " not supported - only Standard Parametrisation is supported for parameter shift/stochastic parameter shift for now.")
    else
      .ok (grad_spsa_func be opts.stepsize randbits variance)
  else
    if derivative_method = "finite_difference" then
      .ok (fun args _ s =>
        let r := hessian_fd_func be opts.stepsize args s
        (.ok (.hess r.1), r.2))
    else .error "Only supported hessian derivative method is finite_difference."

/-- Build the estimator and run it once: a factory validation error leaves
the logger state untouched (the estimator is never built, so no backend call
can occur). -/
def runDerivative (pi : K) (be : Backend K) (ps : StdParams K)
    (className : String) (choose : ℕ → ℕ → ℕ → List ℕ) (randbits : ℕ → List ℤ)
    (dt dm : String) (opts : DerivOptions K) (args : List K)
    (nShots : NShotsArg) (s : LogState) :
    Except String (GradReturn K) × LogState :=
  match derivative pi be ps className choose randbits dt dm opts with
  | .error e => (.error e, s)
  | .ok est => est args nShots s

/-- One backend invocation through either evaluation wrapper. -/
inductive BackCall (K : Type) where
  | expect (args : List K) (nShots : Option ℤ)
  | counts (args : List K) (nShots : Option ℤ)

/-- A sequence of wrapper-mediated backend calls sharing one logger. -/
def runCalls (be : Backend K) (cs : List (BackCall K)) (s : LogState) : LogState :=
  cs.foldl (fun st c =>
    match c with
    | .expect a ns => (update_and_compute_expectation be a ns st).2
    | .counts a ns => (update_and_get_counts be a ns st).2) s

/-- The extended shot layout described by the specification: each standard
parameter's shot count repeated across all of its associated extended gates,
in the grouping order mixer-1q, mixer-2q, cost-1q, cost-2q, each group laid
out across the `p` layers.  Written from the words of the spec, for
comparison with `create_n_shots_ext_list`. -/
def extShotsSpec (ps : StdParams K) (betas gammas : List ℤ) : List (Option ℤ) :=
  (betas.map (fun b => List.replicate ps.mixer_1q_coeffs.length (some b))).flatten ++
    (betas.map (fun b => List.replicate ps.mixer_2q_coeffs.length (some b))).flatten ++
    (gammas.map (fun g => List.replicate ps.cost_1q_coeffs.length (some g))).flatten ++
    (gammas.map (fun g => List.replicate ps.cost_2q_coeffs.length (some g))).flatten

/-- A derivative call fails cleanly when it produces no result and leaves the
logger counters exactly as they were (no backend call happened). -/
def failsCleanly (r : Except String (GradReturn K) × LogState) (s : LogState) : Prop :=
  (∀ x, r.1 ≠ .ok x) ∧ r.2 = s

/-! Helper lemmas -/

theorem vadd_zeroVec (a : List K) : vadd a (zeroVec a.length) = a := by
  induction a with
  | nil => rfl
  | cons x xs ih =>
    simp only [zeroVec, List.length_cons, List.replicate_succ, vadd,
      List.zipWith_cons_cons, add_zero]
    simpa [vadd, zeroVec] using ih

theorem vsub_zeroVec (a : List K) : vsub a (zeroVec a.length) = a := by
  induction a with
  | nil => rfl
  | cons x xs ih =>
    simp only [zeroVec, List.length_cons, List.replicate_succ, vsub,
      List.zipWith_cons_cons, sub_zero]
    simpa [vsub, zeroVec] using ih

/-- Adding a one-hot vector to `a` updates slot `i` in place. -/
theorem vadd_set_zero (a : List K) (i : ℕ) (c : K) (h : i < a.length) :
    vadd a ((zeroVec a.length).set i c) = a.set i (a.getD i 0 + c) := by
  induction a generalizing i with
  | nil => simp at h
  | cons x xs ih =>
    cases i with
    | zero =>
      simp only [zeroVec, List.length_cons, List.replicate_succ, List.set_cons_zero,
        vadd, List.zipWith_cons_cons, List.getD_cons_zero]
      simpa [vadd, zeroVec] using vadd_zeroVec xs
    | succ n =>
      simp only [zeroVec, List.length_cons, List.replicate_succ, List.set_cons_succ,
        vadd, List.zipWith_cons_cons, add_zero, List.getD_cons_succ]
      exact congrArg (x :: ·) (ih n (Nat.lt_of_succ_lt_succ h))

/-- Subtracting a one-hot vector from `a` updates slot `i` in place. -/
theorem vsub_set_zero (a : List K) (i : ℕ) (c : K) (h : i < a.length) :
    vsub a ((zeroVec a.length).set i c) = a.set i (a.getD i 0 - c) := by
  induction a generalizing i with
  | nil => simp at h
  | cons x xs ih =>
    cases i with
    | zero =>
      simp only [zeroVec, List.length_cons, List.replicate_succ, List.set_cons_zero,
        vsub, List.zipWith_cons_cons, List.getD_cons_zero]
      simpa [vsub, zeroVec] using vsub_zeroVec xs
    | succ n =>
      simp only [zeroVec, List.length_cons, List.replicate_succ, List.set_cons_succ,
        vsub, List.zipWith_cons_cons, sub_zero, List.getD_cons_succ]
      exact congrArg (x :: ·) (ih n (Nat.lt_of_succ_lt_succ h))

/-- In expectation mode the shared loop never fails: it returns the central
differences of all items and bumps both counters by exactly two per item. -/
theorem runShiftLoop_exp (be : Backend K) (args : List K)
    (items : List (List K × K × Option ℤ)) (s : LogState) :
    runShiftLoop false be args items s =
      (.ok (items.map (fun it =>
        (it.2.1 * (be.expectation (vadd args it.1) (nShotsKw it.2.2) -
          be.expectation (vsub args it.1) (nShotsKw it.2.2)), (0 : K)))),
       ⟨s.funcEvals + 2 * items.length, s.jacFuncEvals + 2 * items.length⟩) := by
  induction items generalizing s with
  | nil => simp [runShiftLoop]
  | cons it rest ih =>
    simp only [runShiftLoop, gradientKernel, fun_expectation,
      update_and_compute_expectation, Bool.false_eq_true, if_false, ih,
      List.map_cons, List.length_cons]
    refine Prod.ext rfl ?_
    simp only [LogState.mk.injEq]
    omega

/-- `C1`: on the concrete input `p = 1`, one gate per family, all
coefficients `1`, `π` standing at `1`, a backend whose expectation is the dot
product with `[2,4,6,8]` and extended arguments `[0,0,0,0]` (so that the four
extended parameter-shift estimates are `[1,2,3,4]`), the source aggregation
returns the standard gradient `[1, 5]`, whereas summing, for each
(family, layer) group, exactly the extended gradients of that group — the
grouping stated by the specification, `specGroupSums` — yields `[3, 7]`:
the loop `for i in range(0, len(l)-1)` with slice `l[i-1]:l[i]` reads `l[-1]`
at `i = 0`, so the first group sums an empty slice and the last group is
dropped. -/
theorem C1_aggregation_code_bug :
    (grad_ps_func (1 : ℚ)
        ⟨fun a _ => (List.zipWith (· * ·) a [2, 4, 6, 8]).sum,
         fun _ _ => [(0, 1)], fun n => (n : ℚ)⟩
        ⟨1, [1], [1], [1], [1], fun a => a ++ a⟩ false [0, 0] .omitted ⟨0, 0⟩).1 =
      .ok (.grad [1, 5]) ∧
    codeGroupSums (cumIdx (nAssociatedParams
        (⟨1, [1], [1], [1], [1], fun a => a ++ a⟩ : StdParams ℚ)))
        ([1, 2, 3, 4] : List ℚ) = [0, 1, 2, 3] ∧
    specGroupSums (cumIdx (nAssociatedParams
        (⟨1, [1], [1], [1], [1], fun a => a ++ a⟩ : StdParams ℚ)))
        ([1, 2, 3, 4] : List ℚ) = [1, 2, 3, 4] ∧
    sumFamilies 1 ([1, 2, 3, 4] : List ℚ) = [3, 7] ∧
    ([1, 5] : List ℚ) ≠ [3, 7] := by
  refine ⟨?_, ?_, ?_, ?_, ?_⟩
  · norm_num [grad_ps_func, create_n_shots_ext_list, nAssociatedParams, runShiftLoop,
      gradientKernel, fun_expectation, update_and_compute_expectation, psShiftItem,
      coeffsList, pyListMul, cumIdx, codeGroupSums, sumFamilies, pySlice, zeroVec,
      vadd, vsub, nShotsKw, pyTruthy, List.range_succ, List.replicate_succ, List.set]
  · norm_num [codeGroupSums, cumIdx, nAssociatedParams, pySlice, List.range_succ,
      List.replicate_succ]
  · norm_num [specGroupSums, cumIdx, nAssociatedParams, pySlice, List.range_succ,
      List.replicate_succ]
  · norm_num [sumFamilies]
  · norm_num

/-- `C2`: the parameter-shift pass over the extended parameters (the loop of
`grad_ps_func` in expectation mode) computes, for every extended index `i`
with coefficient `r_i = coeffs_list[i]`, exactly
`r_i * (E(θ + η) − E(θ − η))` where the perturbed argument differs from `θ`
only in slot `i`, by `π/(4 r_i)`; and the whole pass makes exactly two
backend expectation calls per extended parameter. -/
theorem C2_param_shift_rule (pi : K) (be : Backend K) (ps : StdParams K)
    (args : List K) (nShots : NShotsArg) (nList : List (Option ℤ)) (s : LogState)
    (hn : create_n_shots_ext_list args.length (nAssociatedParams ps) nShots = .ok nList) :
    runShiftLoop false be (ps.convert_to_ext args)
        ((List.range (ps.convert_to_ext args).length).map
          (psShiftItem pi (coeffsList ps) (ps.convert_to_ext args) nList)) s =
      (.ok ((List.range (ps.convert_to_ext args).length).map (fun i =>
        ((coeffsList ps).getD i 0 *
          (be.expectation ((ps.convert_to_ext args).set i
              ((ps.convert_to_ext args).getD i 0 +
                pi / (4 * (coeffsList ps).getD i 0)))
            (nShotsKw (nList.getD i none)) -
           be.expectation ((ps.convert_to_ext args).set i
              ((ps.convert_to_ext args).getD i 0 -
                pi / (4 * (coeffsList ps).getD i 0)))
            (nShotsKw (nList.getD i none))), (0 : K)))),
       ⟨s.funcEvals + 2 * (ps.convert_to_ext args).length,
        s.jacFuncEvals + 2 * (ps.convert_to_ext args).length⟩) ∧
    (grad_ps_func pi be ps false args nShots s).2 =
      ⟨s.funcEvals + 2 * (ps.convert_to_ext args).length,
       s.jacFuncEvals + 2 * (ps.convert_to_ext args).length⟩ := by
  have hloop := runShiftLoop_exp be (ps.convert_to_ext args)
    ((List.range (ps.convert_to_ext args).length).map
      (psShiftItem pi (coeffsList ps) (ps.convert_to_ext args) nList)) s
  have hmap : ((List.range (ps.convert_to_ext args).length).map
      (psShiftItem pi (coeffsList ps) (ps.convert_to_ext args) nList)).map
        (fun it => (it.2.1 * (be.expectation (vadd (ps.convert_to_ext args) it.1)
            (nShotsKw it.2.2) -
          be.expectation (vsub (ps.convert_to_ext args) it.1) (nShotsKw it.2.2)),
          (0 : K))) =
      (List.range (ps.convert_to_ext args).length).map (fun i =>
        ((coeffsList ps).getD i 0 *
          (be.expectation ((ps.convert_to_ext args).set i
              ((ps.convert_to_ext args).getD i 0 +
                pi / (4 * (coeffsList ps).getD i 0)))
            (nShotsKw (nList.getD i none)) -
           be.expectation ((ps.convert_to_ext args).set i
              ((ps.convert_to_ext args).getD i 0 -
                pi / (4 * (coeffsList ps).getD i 0)))
            (nShotsKw (nList.getD i none))), (0 : K))) := by
    rw [List.map_map]
    refine List.map_congr_left (fun i hi => ?_)
    rw [List.mem_range] at hi
    simp only [Function.comp, psShiftItem]
    rw [vadd_set_zero _ _ _ hi, vsub_set_zero _ _ _ hi]
  constructor
  · rw [hloop, hmap]
    simp only [List.length_map, List.length_range]
  · simp only [grad_ps_func, hn, hloop, Bool.false_eq_true, if_false,
      List.length_map, List.length_range]

/-- Witness for `C2_param_shift_rule` at a concrete instance: two standard
parameters, one gate per family (so four extended parameters), no shot
specification; the estimator makes `2 * 4 = 8` backend expectation calls. -/
theorem C2_param_shift_rule_witness :
    create_n_shots_ext_list 2 (nAssociatedParams
        (⟨1, [1], [1], [1], [1], fun a => a ++ a⟩ : StdParams ℚ)) .omitted =
      .ok (List.replicate 4 none) ∧
    (grad_ps_func (1 : ℚ) ⟨fun _ _ => 0, fun _ _ => [], fun _ => 0⟩
        ⟨1, [1], [1], [1], [1], fun a => a ++ a⟩ false [0, 0] .omitted ⟨0, 0⟩).2 =
      ⟨8, 8⟩ := by
  refine ⟨rfl, ?_⟩
  have h := C2_param_shift_rule (1 : ℚ) ⟨fun _ _ => 0, fun _ _ => [], fun _ => 0⟩
    ⟨1, [1], [1], [1], [1], fun a => a ++ a⟩ [0, 0] .omitted (List.replicate 4 none)
    ⟨0, 0⟩ rfl
  simpa using h.2

/-- `C8` counterexample: the claim says the shots argument is forwarded to
the backend if and only if it was provided.  But a provided `n_shots = 0` is
falsy in Python, so the keyword dictionary is empty and the backend sees no
shots argument: with a backend whose expectation is `37` exactly when it
receives no shots argument, the wrapper called with `some 0` returns `37`. -/
theorem C8_counterexample :
    nShotsKw (some 0) = none ∧ some (0 : ℤ) ≠ none ∧
    (update_and_compute_expectation
        (⟨fun _ ns => if ns = none then 37 else 0, fun _ _ => [], fun _ => 0⟩ : Backend ℚ)
        [] (some 0) ⟨0, 0⟩).1 = 37 := by
  refine ⟨rfl, by simp, ?_⟩
  norm_num [update_and_compute_expectation, nShotsKw, pyTruthy]

/-- `C8` (amended): both wrappers hand the backend exactly `nShotsKw n`; a
shots value is forwarded exactly when it is provided and nonzero (Python
truthiness), an absent or zero value yields no shots argument (backend
default), and a forwarded value is always exactly the provided one — it is
never replaced by a different sentinel. -/
theorem C8_shots_forwarding (be : Backend K) (args : List K) (n : Option ℤ)
    (s : LogState) :
    (update_and_compute_expectation be args n s).1 =
        be.expectation args (nShotsKw n) ∧
    (update_and_get_counts be args n s).1 = be.getCounts args (nShotsKw n) ∧
    (nShotsKw n = n ∨ nShotsKw n = none) ∧
    (nShotsKw n = none ↔ (n = none ∨ n = some 0)) := by
  refine ⟨rfl, rfl, ?_, ?_⟩
  · cases n with
    | none => exact Or.inr rfl
    | some k => by_cases h : k = 0 <;> simp [nShotsKw, pyTruthy, h]
  · cases n with
    | none => simp [nShotsKw, pyTruthy]
    | some k => by_cases h : k = 0 <;> simp [nShotsKw, pyTruthy, h]

/-- Every sequence of wrapper-mediated backend calls advances both counters
by exactly the number of calls. -/
theorem runCalls_spec (be : Backend K) (cs : List (BackCall K)) (s : LogState) :
    runCalls be cs s = ⟨s.funcEvals + cs.length, s.jacFuncEvals + cs.length⟩ := by
  induction cs generalizing s with
  | nil => simp [runCalls]
  | cons c rest ih =>
    cases c with
    | expect a ns =>
      simp only [runCalls, List.foldl_cons] at *
      rw [show (update_and_compute_expectation be a ns s).2 =
        (⟨s.funcEvals + 1, s.jacFuncEvals + 1⟩ : LogState) from rfl, ih]
      simp only [List.length_cons, LogState.mk.injEq]
      omega
    | counts a ns =>
      simp only [runCalls, List.foldl_cons] at *
      rw [show (update_and_get_counts be a ns s).2 =
        (⟨s.funcEvals + 1, s.jacFuncEvals + 1⟩ : LogState) from rfl, ih]
      simp only [List.length_cons, LogState.mk.injEq]
      omega

/-- `C9`: each wrapper-mediated backend call (expectation or counts)
increments `func_evals` and `jac_func_evals` by exactly one — the counters
are written before the backend is invoked in the source — so over any
sequence of calls sharing one logger both counters grow by exactly the
number of calls and are monotonically non-decreasing under extending the
sequence. -/
theorem C9_counters (be : Backend K) (args : List K) (ns : Option ℤ)
    (s : LogState) (cs cs2 : List (BackCall K)) :
    (update_and_compute_expectation be args ns s).2 =
        ⟨s.funcEvals + 1, s.jacFuncEvals + 1⟩ ∧
    (update_and_get_counts be args ns s).2 =
        ⟨s.funcEvals + 1, s.jacFuncEvals + 1⟩ ∧
    (runCalls be cs s).funcEvals = s.funcEvals + cs.length ∧
    (runCalls be cs s).jacFuncEvals = s.jacFuncEvals + cs.length ∧
    (runCalls be cs s).funcEvals ≤ (runCalls be (cs ++ cs2) s).funcEvals ∧
    (runCalls be cs s).jacFuncEvals ≤ (runCalls be (cs ++ cs2) s).jacFuncEvals := by
  refine ⟨rfl, rfl, ?_, ?_, ?_, ?_⟩
  · simp [runCalls_spec]
  · simp [runCalls_spec]
  · simp only [runCalls_spec, List.length_append]
    omega
  · simp only [runCalls_spec, List.length_append]
    omega

/-- `C10` (amended): the counts-mode kernel forms the per-shot gradient
sample list from the two per-shot cost lists with numpy subtraction; a
(mean, variance) pair is returned exactly when the two lists have the same
length or either has length one (numpy broadcasting), and a broadcast error
is raised otherwise; when the two lengths are equal (the claim's same-total
case) the sample list is the elementwise scaled difference of the forward
and backward per-shot costs. -/
theorem C10_kernel (be : Backend K) (args vect_eta : List K) (c : K)
    (ns : Option ℤ) (s : LogState) :
    ((∃ mv, (fun_w_variance be args vect_eta c ns s).1 = .ok mv) ↔
      ((countsToShotCosts be.costF (be.getCounts (vadd args vect_eta) (nShotsKw ns))).length =
        (countsToShotCosts be.costF (be.getCounts (vsub args vect_eta) (nShotsKw ns))).length ∨
       (countsToShotCosts be.costF (be.getCounts (vadd args vect_eta) (nShotsKw ns))).length = 1 ∨
       (countsToShotCosts be.costF (be.getCounts (vsub args vect_eta) (nShotsKw ns))).length = 1)) ∧
    ((countsToShotCosts be.costF (be.getCounts (vadd args vect_eta) (nShotsKw ns))).length =
        (countsToShotCosts be.costF (be.getCounts (vsub args vect_eta) (nShotsKw ns))).length →
      (fun_w_variance be args vect_eta c ns s).1 =
        .ok (npMean ((List.zip
              (countsToShotCosts be.costF (be.getCounts (vadd args vect_eta) (nShotsKw ns)))
              (countsToShotCosts be.costF (be.getCounts (vsub args vect_eta) (nShotsKw ns)))).map
                (fun xy => c * (xy.1 - xy.2))),
             npVar ((List.zip
              (countsToShotCosts be.costF (be.getCounts (vadd args vect_eta) (nShotsKw ns)))
              (countsToShotCosts be.costF (be.getCounts (vsub args vect_eta) (nShotsKw ns)))).map
                (fun xy => c * (xy.1 - xy.2))))) := by
  have hz : ∀ a b : List K, List.map (fun xy => c * (xy.1 - xy.2)) (List.zip a b) =
      smulV c (List.zipWith (· - ·) a b) := by
    intro a b
    simp [smulV, List.zip, List.map_zipWith]
  constructor
  · constructor
    · rintro ⟨mv, hmv⟩
      by_contra hcon
      push_neg at hcon
      simp only [fun_w_variance, update_and_get_counts, npBroadcastSub,
        if_neg hcon.1, if_neg hcon.2.1, if_neg hcon.2.2] at hmv
      exact Except.noConfusion hmv
    · intro hlen
      simp only [fun_w_variance, update_and_get_counts, npBroadcastSub]
      rcases hlen with h | h | h
      · rw [if_pos h]; exact ⟨_, rfl⟩
      · by_cases h0 : (countsToShotCosts be.costF
            (be.getCounts (vadd args vect_eta) (nShotsKw ns))).length =
            (countsToShotCosts be.costF (be.getCounts (vsub args vect_eta) (nShotsKw ns))).length
        · rw [if_pos h0]; exact ⟨_, rfl⟩
        · rw [if_neg h0, if_pos h]; exact ⟨_, rfl⟩
      · by_cases h0 : (countsToShotCosts be.costF
            (be.getCounts (vadd args vect_eta) (nShotsKw ns))).length =
            (countsToShotCosts be.costF (be.getCounts (vsub args vect_eta) (nShotsKw ns))).length
        · rw [if_pos h0]; exact ⟨_, rfl⟩
        · by_cases h1 : (countsToShotCosts be.costF
              (be.getCounts (vadd args vect_eta) (nShotsKw ns))).length = 1
          · rw [if_neg h0, if_pos h1]; exact ⟨_, rfl⟩
          · rw [if_neg h0, if_neg h1, if_pos h]; exact ⟨_, rfl⟩
  · intro hlen
    simp only [fun_w_variance, update_and_get_counts, npBroadcastSub, if_pos hlen]
    rw [hz]

/-- `C10` counterexample: the claim says the kernel returns a pair only when
the two histograms hold the same total number of shots.  With a forward
histogram of total `1` and a backward histogram of total `2`, numpy
broadcasts the length-1 cost array, and the kernel returns
`(mean, variance) = (-1/2, 1/4)` instead of failing. -/
theorem C10_counterexample :
    (fun_w_variance
        (⟨fun _ _ => 0, fun a _ => if a = [(1 : ℚ)] then [(0, 1)] else [(0, 1), (1, 1)],
          fun n => (n : ℚ)⟩ : Backend ℚ)
        [0] [1] 1 none ⟨0, 0⟩).1 = .ok (-(1 : ℚ)/2, 1/4) ∧
    (countsToShotCosts (fun n => (n : ℚ)) [(0, 1)]).length = 1 ∧
    (countsToShotCosts (fun n => (n : ℚ)) [(0, 1), (1, 1)]).length = 2 := by
  refine ⟨?_, by simp [countsToShotCosts], by simp [countsToShotCosts]⟩
  norm_num [fun_w_variance, update_and_get_counts, countsToShotCosts,
    npBroadcastSub, npMean, npVar, smulV, vadd, vsub, nShotsKw, pyTruthy]

/-- Witness for `C10_kernel` at a concrete instance with equal totals: both
histograms hold two shots of outcome `0` with cost `0`, and the kernel
returns the pair `(0, 0)`. -/
theorem C10_kernel_witness :
    (countsToShotCosts (fun n => (n : ℚ)) [(0, 2)]).length =
      (countsToShotCosts (fun n => (n : ℚ)) [(0, 2)]).length ∧
    (fun_w_variance
        (⟨fun _ _ => 0, fun _ _ => [(0, 2)], fun n => (n : ℚ)⟩ : Backend ℚ)
        [0] [1] 1 none ⟨0, 0⟩).1 = .ok (0, 0) := by
  refine ⟨rfl, ?_⟩
  have h := (C10_kernel
    (⟨fun _ _ => 0, fun _ _ => [(0, 2)], fun n => (n : ℚ)⟩ : Backend ℚ)
    [0] [1] 1 none ⟨0, 0⟩).2 rfl
  rw [h]
  norm_num [countsToShotCosts, npMean, npVar]

theorem zipWith_replicate_left {α β γ : Type} (f : α → β → γ) (a : α)
    (l : List β) (n : ℕ) (h : l.length = n) :
    List.zipWith f (List.replicate n a) l = l.map (f a) := by
  subst h
  induction l with
  | nil => rfl
  | cons x xs ih => simpa [List.replicate_succ] using ih

/-- `C6`: an integer or absent shot specification is broadcast to a list of
the requested length; a list is returned unchanged when its length matches
and rejected otherwise; and the extended-space variant expands a
per-standard-parameter list (betas then gammas) into one entry per extended
gate, repeating each standard parameter's count across its associated gates
in the fixed grouping order mixer-1q, mixer-2q, cost-1q, cost-2q, each group
across the `p` layers (`extShotsSpec`). -/
theorem C6_shot_broadcasting (n : ℕ) (k : ℤ) (l : List ℤ) (ps : StdParams K)
    (betas gammas : List ℤ) (hb : betas.length = ps.p) (hg : gammas.length = ps.p) :
    create_n_shots_list n (.int k) = .ok (List.replicate n (some k)) ∧
    create_n_shots_list n .omitted = .ok (List.replicate n none) ∧
    (l.length = n → create_n_shots_list n (.list l) = .ok (l.map some)) ∧
    (l.length ≠ n → ∃ e, create_n_shots_list n (.list l) = .error e) ∧
    create_n_shots_ext_list (betas ++ gammas).length (nAssociatedParams ps)
        (.list (betas ++ gammas)) = .ok (extShotsSpec ps betas gammas) := by
  refine ⟨rfl, rfl, fun h => by simp [create_n_shots_list, h],
    fun h => ⟨"n_shots must be a list of length equal to the number of parameters.",
      by simp [create_n_shots_list, h]⟩, ?_⟩
  have hlen2 : (betas ++ gammas).length = ps.p + ps.p := by
    simp [List.length_append, hb, hg]
  have hmod : (betas ++ gammas).length % 2 = 0 := by omega
  have hhalf : (betas ++ gammas).length / 2 = ps.p := by omega
  have hrep : repeatHalves (betas ++ gammas) = betas ++ (betas ++ (gammas ++ gammas)) := by
    simp only [repeatHalves, hhalf]
    rw [← hb, List.take_left, List.drop_left]
    simp [List.append_assoc]
  simp only [create_n_shots_ext_list, if_pos rfl, if_pos hmod, hrep, nAssociatedParams,
    eq_self_iff_true, if_true, List.append_assoc]
  rw [List.zipWith_append _ _ _ _ _ (by simp [hb]),
    List.zipWith_append _ _ _ _ _ (by simp [hb]),
    List.zipWith_append _ _ _ _ _ (by simp [hg]),
    zipWith_replicate_left _ _ _ _ hb, zipWith_replicate_left _ _ _ _ hb,
    zipWith_replicate_left _ _ _ _ hg, zipWith_replicate_left _ _ _ _ hg]
  simp [extShotsSpec, List.flatten_append]

/-- Witness for `C6_shot_broadcasting` at `p = 2`, family sizes
`(2, 1, 1, 3)`, betas `[1, 2]`, gammas `[3, 4]`. -/
theorem C6_shot_broadcasting_witness :
    ([10, 20] : List ℤ).length = 2 ∧ ([10, 20, 30] : List ℤ).length ≠ 2 ∧
    create_n_shots_list 2 (.list [10, 20]) = .ok [some 10, some 20] ∧
    (∃ e, create_n_shots_list 2 (.list [10, 20, 30]) = .error e) ∧
    create_n_shots_ext_list 4
        (nAssociatedParams (⟨2, [1, 1], [1], [1], [1, 1, 1], id⟩ : StdParams ℚ))
        (.list [1, 2, 3, 4]) =
      .ok [some 1, some 1, some 2, some 2, some 1, some 2, some 3, some 4,
        some 3, some 3, some 3, some 4, some 4, some 4] := by
  have h := C6_shot_broadcasting (K := ℚ) 2 0 [10, 20]
    (⟨2, [1, 1], [1], [1], [1, 1, 1], id⟩ : StdParams ℚ) [1, 2] [3, 4] rfl rfl
  have h2 := C6_shot_broadcasting (K := ℚ) 2 0 [10, 20, 30]
    (⟨2, [1, 1], [1], [1], [1, 1, 1], id⟩ : StdParams ℚ) [1, 2] [3, 4] rfl rfl
  refine ⟨rfl, by decide, ?_, h2.2.2.2.1 (by decide), ?_⟩
  · simpa using h.2.2.1 rfl
  · have h5 := h.2.2.2.2
    simpa [extShotsSpec, List.replicate_succ] using h5

theorem smulV_zeroVec (c : K) (n : ℕ) : smulV c (zeroVec n) = zeroVec n := by
  simp [smulV, zeroVec, List.map_replicate]

theorem smulV_set (c x : K) (l : List K) (i : ℕ) :
    smulV c (l.set i x) = (smulV c l).set i (c * x) := by
  simp [smulV, List.map_set]

theorem vadd_set_zero' (a : List K) (n i : ℕ) (c : K) (h : i < a.length)
    (hn : n = a.length) :
    vadd a ((zeroVec n).set i c) = a.set i (a.getD i 0 + c) := by
  subst hn
  exact vadd_set_zero a i c h

theorem vsub_set_zero' (a : List K) (n i : ℕ) (c : K) (h : i < a.length)
    (hn : n = a.length) :
    vsub a ((zeroVec n).set i c) = a.set i (a.getD i 0 - c) := by
  subst hn
  exact vsub_set_zero a i c h

theorem getD_set_ne (a : List K) (i j : ℕ) (x : K) (h : ¬ i = j) :
    (a.set i x).getD j 0 = a.getD j 0 := by
  simp [List.getD_eq_getElem?_getD, List.getElem?_set_ne h]

theorem getD_map_range {α : Type} (f : ℕ → α) (N i : ℕ) (h : i < N) (d : α) :
    ((List.range N).map f).getD i d = f i := by
  rw [List.getD_eq_getElem?_getD]
  simp [List.getElem?_map, List.getElem?_range h]

/-- The value of one Hessian entry, with the one-hot perturbations made
explicit (independent of the logger state). -/
theorem hessEntryS_fst (be : Backend K) (eta : K) (args : List K) (i j : ℕ)
    (s : LogState) :
    (hessEntryS be eta args i j s).1 =
      if i = j then
        (-(be.expectation (vadd args ((zeroVec args.length).set i (2 * eta))) none) +
          16 * be.expectation (vadd args ((zeroVec args.length).set i (eta * 1))) none -
          30 * be.expectation args none +
          16 * be.expectation (vsub args ((zeroVec args.length).set i (eta * 1))) none -
          be.expectation (vsub args ((zeroVec args.length).set i (2 * eta))) none) /
          (12 * eta ^ 2)
      else
        (be.expectation (vadd (vadd args ((zeroVec args.length).set i (eta * 1)))
            ((zeroVec args.length).set j (eta * 1))) none -
         be.expectation (vsub (vadd args ((zeroVec args.length).set i (eta * 1)))
            ((zeroVec args.length).set j (eta * 1))) none -
         be.expectation (vadd (vsub args ((zeroVec args.length).set i (eta * 1)))
            ((zeroVec args.length).set j (eta * 1))) none +
         be.expectation (vsub (vsub args ((zeroVec args.length).set i (eta * 1)))
            ((zeroVec args.length).set j (eta * 1))) none) / (4 * eta ^ 2) := by
  by_cases h : i = j <;>
    simp [hessEntryS, h, update_and_compute_expectation, nShotsKw, pyTruthy,
      smulV_set, smulV_zeroVec, mul_one]

theorem hessRowS_fst (be : Backend K) (eta : K) (args : List K) (i : ℕ)
    (js : List ℕ) (s : LogState) :
    (hessRowS be eta args i js s).1 =
      js.map (fun j => (hessEntryS be eta args i j ⟨0, 0⟩).1) := by
  induction js generalizing s with
  | nil => rfl
  | cons j js ih =>
    simp only [hessRowS, ih, List.map_cons]
    congr 1
    rw [hessEntryS_fst, hessEntryS_fst]

theorem hessMatS_fst (be : Backend K) (eta : K) (args : List K)
    (is1 : List ℕ) (s : LogState) :
    (hessMatS be eta args is1 s).1 =
      is1.map (fun i => (List.range args.length).map
        (fun j => (hessEntryS be eta args i j ⟨0, 0⟩).1)) := by
  induction is1 generalizing s with
  | nil => rfl
  | cons i rest ih => simp only [hessMatS, ih, List.map_cons, hessRowS_fst]

/-- `C7`: entry `(i, j)` of the finite-difference Hessian is the 5-point
central stencil on the diagonal and the 4-point mixed stencil off the
diagonal, evaluated at the arguments perturbed only in slots `i` (and `j`)
by the stated multiples of `eta`, with `f` the backend expectation (called
without a shots argument). -/
theorem C7_hessian_stencils (be : Backend K) (eta : K) (args : List K)
    (s : LogState) (i j : ℕ) (hi : i < args.length) (hj : j < args.length) :
    ((hessian_fd_func be eta args s).1.getD i []).getD j 0 =
      if i = j then
        (-(be.expectation (args.set i (args.getD i 0 + 2 * eta)) none) +
          16 * be.expectation (args.set i (args.getD i 0 + eta)) none -
          30 * be.expectation args none +
          16 * be.expectation (args.set i (args.getD i 0 - eta)) none -
          be.expectation (args.set i (args.getD i 0 - 2 * eta)) none) /
          (12 * eta ^ 2)
      else
        (be.expectation ((args.set i (args.getD i 0 + eta)).set j (args.getD j 0 + eta)) none -
         be.expectation ((args.set i (args.getD i 0 + eta)).set j (args.getD j 0 - eta)) none -
         be.expectation ((args.set i (args.getD i 0 - eta)).set j (args.getD j 0 + eta)) none +
         be.expectation ((args.set i (args.getD i 0 - eta)).set j (args.getD j 0 - eta)) none) /
          (4 * eta ^ 2) := by
  rw [hessian_fd_func, hessMatS_fst, getD_map_range _ _ _ hi,
    getD_map_range _ _ _ hj, hessEntryS_fst]
  by_cases h : i = j
  · subst h
    rw [if_pos rfl, if_pos rfl]
    simp only [mul_one]
    rw [vadd_set_zero _ _ _ hi, vadd_set_zero _ _ _ hi, vsub_set_zero _ _ _ hi,
      vsub_set_zero _ _ _ hi]
  · simp only [if_neg h]
    have e1 : vadd (vadd args ((zeroVec args.length).set i (eta * 1)))
        ((zeroVec args.length).set j (eta * 1)) =
        (args.set i (args.getD i 0 + eta)).set j (args.getD j 0 + eta) := by
      rw [mul_one, vadd_set_zero _ _ _ hi,
        vadd_set_zero' _ args.length j eta (by simpa using hj) (by simp),
        getD_set_ne _ _ _ _ h]
    have e2 : vsub (vadd args ((zeroVec args.length).set i (eta * 1)))
        ((zeroVec args.length).set j (eta * 1)) =
        (args.set i (args.getD i 0 + eta)).set j (args.getD j 0 - eta) := by
      rw [mul_one, vadd_set_zero _ _ _ hi,
        vsub_set_zero' _ args.length j eta (by simpa using hj) (by simp),
        getD_set_ne _ _ _ _ h]
    have e3 : vadd (vsub args ((zeroVec args.length).set i (eta * 1)))
        ((zeroVec args.length).set j (eta * 1)) =
        (args.set i (args.getD i 0 - eta)).set j (args.getD j 0 + eta) := by
      rw [mul_one, vsub_set_zero _ _ _ hi,
        vadd_set_zero' _ args.length j eta (by simpa using hj) (by simp),
        getD_set_ne _ _ _ _ h]
    have e4 : vsub (vsub args ((zeroVec args.length).set i (eta * 1)))
        ((zeroVec args.length).set j (eta * 1)) =
        (args.set i (args.getD i 0 - eta)).set j (args.getD j 0 - eta) := by
      rw [mul_one, vsub_set_zero _ _ _ hi,
        vsub_set_zero' _ args.length j eta (by simpa using hj) (by simp),
        getD_set_ne _ _ _ _ h]
    rw [e1, e2, e3, e4]

/-- Witness for `C7_hessian_stencils` at the off-diagonal entry `(0, 1)` of a
2-parameter Hessian with `f = sum of the angles`: the mixed stencil vanishes. -/
theorem C7_hessian_stencils_witness :
    (0 : ℕ) < 2 ∧ (1 : ℕ) < 2 ∧
    ((hessian_fd_func (⟨fun a _ => a.sum, fun _ _ => [], fun _ => 0⟩ : Backend ℚ)
        1 [0, 0] ⟨0, 0⟩).1.getD 0 []).getD 1 0 = 0 := by
  refine ⟨by decide, by decide, ?_⟩
  have h := C7_hessian_stencils
    (⟨fun a _ => a.sum, fun _ _ => [], fun _ => 0⟩ : Backend ℚ)
    1 [0, 0] ⟨0, 0⟩ 0 1 (by decide) (by decide)
  rw [h]
  norm_num [List.set]

/-- `C5`: every documented validation failure — unknown derivative type,
unknown derivative method, `hessian` with a method other than
`finite_difference`, (stochastic) parameter shift with a non-standard
parameter container, a stochastic sample size outside `[-1, family maximum]`,
and a shot-count list whose length differs from the parameter count — yields
an error and leaves the backend-evaluation counters unchanged (no backend
call is made). -/
theorem C5_validation (pi : K) (be : Backend K) (ps : StdParams K)
    (className : String) (choose : ℕ → ℕ → ℕ → List ℕ) (randbits : ℕ → List ℤ)
    (dt dm : String) (opts : DerivOptions K) (args : List K) (nSh : NShotsArg)
    (l : List ℤ) (s : LogState) :
    (dt ∉ derivative_types →
      failsCleanly (runDerivative pi be ps className choose randbits dt dm opts
        args nSh s) s) ∧
    (dm ∉ derivative_methods →
      failsCleanly (runDerivative pi be ps className choose randbits dt dm opts
        args nSh s) s) ∧
    (dt = "hessian" → dm ≠ "finite_difference" →
      failsCleanly (runDerivative pi be ps className choose randbits dt dm opts
        args nSh s) s) ∧
    ((dm = "param_shift" ∨ dm = "stoch_param_shift") →
      className ≠ "QAOAVariationalStandardParams" →
      failsCleanly (runDerivative pi be ps className choose randbits dt dm opts
        args nSh s) s) ∧
    (dm = "stoch_param_shift" →
      (∃ xy ∈ List.zip (spsSizeList (optsSizes opts)) (familyMaxes ps),
        xy.1 < -1 ∨ (xy.2 : ℤ) < xy.1) →
      failsCleanly (runDerivative pi be ps className choose randbits dt dm opts
        args nSh s) s) ∧
    ((dt = "gradient" ∨ dt = "gradient_w_variance") →
      (dm = "finite_difference" ∨ dm = "param_shift" ∨ dm = "stoch_param_shift") →
      l.length ≠ args.length →
      failsCleanly (runDerivative pi be ps className choose randbits dt dm opts
        args (.list l) s) s) := by
  refine ⟨?_, ?_, ?_, ?_, ?_, ?_⟩
  · intro h
    refine ⟨fun r => ?_, ?_⟩ <;> simp [runDerivative, derivative, h]
  · intro h
    by_cases hdt : dt ∈ derivative_types <;>
      refine ⟨fun r => ?_, ?_⟩ <;> simp [runDerivative, derivative, h, hdt]
  · intro hdt h
    subst hdt
    by_cases hdm : dm ∈ derivative_methods
    · simp only [derivative_methods, List.mem_cons, List.not_mem_nil, or_false] at hdm
      rcases hdm with hdm | hdm | hdm | hdm <;> subst hdm
      · exact absurd rfl h
      all_goals exact ⟨fun r => by
          simp [runDerivative, derivative, derivative_types, derivative_methods],
        by simp [runDerivative, derivative, derivative_types, derivative_methods]⟩
    · refine ⟨fun r => ?_, ?_⟩ <;>
        simp [runDerivative, derivative, derivative_types, hdm]
  · intro hdm hcl
    by_cases hdt : dt ∈ derivative_types
    · simp only [derivative_types, List.mem_cons, List.not_mem_nil, or_false] at hdt
      rcases hdm with hdm | hdm <;> subst hdm <;>
        rcases hdt with hdt | hdt | hdt <;> subst hdt <;>
        exact ⟨fun r => by
            simp [runDerivative, derivative, derivative_types, derivative_methods, hcl],
          by simp [runDerivative, derivative, derivative_types, derivative_methods, hcl]⟩
    · refine ⟨fun r => ?_, ?_⟩ <;>
        simp [runDerivative, derivative, hdt]
  · intro hdm hv
    subst hdm
    obtain ⟨xy, hmem, hbad⟩ := hv
    have hx : ¬ ((List.zip (spsSizeList (optsSizes opts)) (familyMaxes ps)).all
        (fun xy => decide (-1 ≤ xy.1 ∧ xy.1 ≤ (xy.2 : ℤ))) = true) := by
      rw [List.all_eq_true]
      push_neg
      refine ⟨xy, hmem, ?_⟩
      intro hc
      simp only [decide_eq_true_eq] at hc
      rcases hbad with hbad | hbad <;> omega
    have hval : grad_sps_validate ps (optsSizes opts) =
        .error "Invalid stochastic parameter-shift sample size" := by
      rw [grad_sps_validate, if_neg hx]
    by_cases hdt : dt ∈ derivative_types
    · simp only [derivative_types, List.mem_cons, List.not_mem_nil, or_false] at hdt
      by_cases hcl : className = "QAOAVariationalStandardParams"
      · subst hcl
        rcases hdt with hdt | hdt | hdt <;> subst hdt <;>
          exact ⟨fun r => by
              simp [runDerivative, derivative, derivative_types, derivative_methods, hval],
            by simp [runDerivative, derivative, derivative_types, derivative_methods, hval]⟩
      · rcases hdt with hdt | hdt | hdt <;> subst hdt <;>
          exact ⟨fun r => by
              simp [runDerivative, derivative, derivative_types, derivative_methods, hcl],
            by simp [runDerivative, derivative, derivative_types, derivative_methods, hcl]⟩
    · refine ⟨fun r => ?_, ?_⟩ <;> simp [runDerivative, derivative, hdt]
  · intro hdt hdm hne
    have hfd : ∀ variance : Bool,
        failsCleanly (grad_fd_func be opts.stepsize variance args (.list l) s) s := by
      intro variance
      refine ⟨fun r => ?_, ?_⟩ <;>
        simp [grad_fd_func, create_n_shots_list, hne]
    have hps : ∀ variance : Bool,
        failsCleanly (grad_ps_func pi be ps variance args (.list l) s) s := by
      intro variance
      cases variance <;> refine ⟨fun r => ?_, ?_⟩ <;>
        simp [grad_ps_func, create_n_shots_list, create_n_shots_ext_list,
          Except.map, hne]
    have hsps : ∀ (variance : Bool) (nRes : List ℕ),
        failsCleanly (grad_sps_func pi be ps nRes choose variance args (.list l) s) s := by
      intro variance nRes
      cases variance <;> refine ⟨fun r => ?_, ?_⟩ <;>
        simp [grad_sps_func, create_n_shots_list, create_n_shots_ext_list,
          Except.map, hne]
    rcases hdt with hdt | hdt <;> subst hdt <;>
      rcases hdm with hdm | hdm | hdm <;> subst hdm
    · simpa [runDerivative, derivative, derivative_types, derivative_methods]
        using hfd false
    · by_cases hcl : className = "QAOAVariationalStandardParams"
      · simpa [runDerivative, derivative, derivative_types, derivative_methods, hcl]
          using hps false
      · refine ⟨fun r => ?_, ?_⟩ <;>
          simp [runDerivative, derivative, derivative_types, derivative_methods, hcl]
    · by_cases hcl : className = "QAOAVariationalStandardParams"
      · rcases hv : grad_sps_validate ps (optsSizes opts) with e | nRes
        · refine ⟨fun r => ?_, ?_⟩ <;>
            simp [runDerivative, derivative, derivative_types, derivative_methods,
              hcl, hv]
        · simpa [runDerivative, derivative, derivative_types, derivative_methods,
            hcl, hv] using hsps false nRes
      · refine ⟨fun r => ?_, ?_⟩ <;>
          simp [runDerivative, derivative, derivative_types, derivative_methods, hcl]
    · simpa [runDerivative, derivative, derivative_types, derivative_methods]
        using hfd true
    · by_cases hcl : className = "QAOAVariationalStandardParams"
      · simpa [runDerivative, derivative, derivative_types, derivative_methods, hcl]
          using hps true
      · refine ⟨fun r => ?_, ?_⟩ <;>
          simp [runDerivative, derivative, derivative_types, derivative_methods, hcl]
    · by_cases hcl : className = "QAOAVariationalStandardParams"
      · rcases hv : grad_sps_validate ps (optsSizes opts) with e | nRes
        · refine ⟨fun r => ?_, ?_⟩ <;>
            simp [runDerivative, derivative, derivative_types, derivative_methods,
              hcl, hv]
        · simpa [runDerivative, derivative, derivative_types, derivative_methods,
            hcl, hv] using hsps true nRes
      · refine ⟨fun r => ?_, ?_⟩ <;>
          simp [runDerivative, derivative, derivative_types, derivative_methods, hcl]

/-- Witness for `C5_validation`: each of the six documented validation
failures, at a concrete instance, leaves the logger counters at their initial
value `(3, 4)`. -/
theorem C5_validation_witness :
    (runDerivative (1 : ℚ) ⟨fun _ _ => 0, fun _ _ => [], fun _ => 0⟩
      ⟨1, [1], [1], [1], [1], fun a => a ++ a⟩ "QAOAVariationalStandardParams"
      (fun lo hi _ => List.range' lo (hi - lo)) (fun n => List.replicate n 1)
      "bogus" "finite_difference" ⟨1, -1, -1, -1, -1⟩ [0, 0] .omitted ⟨3, 4⟩).2 = ⟨3, 4⟩ ∧
    (runDerivative (1 : ℚ) ⟨fun _ _ => 0, fun _ _ => [], fun _ => 0⟩
      ⟨1, [1], [1], [1], [1], fun a => a ++ a⟩ "QAOAVariationalStandardParams"
      (fun lo hi _ => List.range' lo (hi - lo)) (fun n => List.replicate n 1)
      "gradient" "bogus" ⟨1, -1, -1, -1, -1⟩ [0, 0] .omitted ⟨3, 4⟩).2 = ⟨3, 4⟩ ∧
    (runDerivative (1 : ℚ) ⟨fun _ _ => 0, fun _ _ => [], fun _ => 0⟩
      ⟨1, [1], [1], [1], [1], fun a => a ++ a⟩ "QAOAVariationalStandardParams"
      (fun lo hi _ => List.range' lo (hi - lo)) (fun n => List.replicate n 1)
      "hessian" "param_shift" ⟨1, -1, -1, -1, -1⟩ [0, 0] .omitted ⟨3, 4⟩).2 = ⟨3, 4⟩ ∧
    (runDerivative (1 : ℚ) ⟨fun _ _ => 0, fun _ _ => [], fun _ => 0⟩
      ⟨1, [1], [1], [1], [1], fun a => a ++ a⟩ "QAOAVariationalExtendedParams"
      (fun lo hi _ => List.range' lo (hi - lo)) (fun n => List.replicate n 1)
      "gradient" "param_shift" ⟨1, -1, -1, -1, -1⟩ [0, 0] .omitted ⟨3, 4⟩).2 = ⟨3, 4⟩ ∧
    (runDerivative (1 : ℚ) ⟨fun _ _ => 0, fun _ _ => [], fun _ => 0⟩
      ⟨1, [1], [1], [1], [1], fun a => a ++ a⟩ "QAOAVariationalStandardParams"
      (fun lo hi _ => List.range' lo (hi - lo)) (fun n => List.replicate n 1)
      "gradient" "stoch_param_shift" ⟨1, 5, -1, -1, -1⟩ [0, 0] .omitted ⟨3, 4⟩).2 = ⟨3, 4⟩ ∧
    (runDerivative (1 : ℚ) ⟨fun _ _ => 0, fun _ _ => [], fun _ => 0⟩
      ⟨1, [1], [1], [1], [1], fun a => a ++ a⟩ "QAOAVariationalStandardParams"
      (fun lo hi _ => List.range' lo (hi - lo)) (fun n => List.replicate n 1)
      "gradient" "finite_difference" ⟨1, -1, -1, -1, -1⟩ [0, 0] (.list [7]) ⟨3, 4⟩).2 = ⟨3, 4⟩ := by
  refine ⟨?_, ?_, ?_, ?_, ?_, ?_⟩
  · exact ((C5_validation (1 : ℚ) ⟨fun _ _ => 0, fun _ _ => [], fun _ => 0⟩
      ⟨1, [1], [1], [1], [1], fun a => a ++ a⟩ "QAOAVariationalStandardParams"
      (fun lo hi _ => List.range' lo (hi - lo)) (fun n => List.replicate n 1)
      "bogus" "finite_difference" ⟨1, -1, -1, -1, -1⟩ [0, 0] .omitted [7] ⟨3, 4⟩).1
      (by decide)).2
  · exact ((C5_validation (1 : ℚ) ⟨fun _ _ => 0, fun _ _ => [], fun _ => 0⟩
      ⟨1, [1], [1], [1], [1], fun a => a ++ a⟩ "QAOAVariationalStandardParams"
      (fun lo hi _ => List.range' lo (hi - lo)) (fun n => List.replicate n 1)
      "gradient" "bogus" ⟨1, -1, -1, -1, -1⟩ [0, 0] .omitted [7] ⟨3, 4⟩).2.1
      (by decide)).2
  · exact ((C5_validation (1 : ℚ) ⟨fun _ _ => 0, fun _ _ => [], fun _ => 0⟩
      ⟨1, [1], [1], [1], [1], fun a => a ++ a⟩ "QAOAVariationalStandardParams"
      (fun lo hi _ => List.range' lo (hi - lo)) (fun n => List.replicate n 1)
      "hessian" "param_shift" ⟨1, -1, -1, -1, -1⟩ [0, 0] .omitted [7] ⟨3, 4⟩).2.2.1
      rfl (by decide)).2
  · exact ((C5_validation (1 : ℚ) ⟨fun _ _ => 0, fun _ _ => [], fun _ => 0⟩
      ⟨1, [1], [1], [1], [1], fun a => a ++ a⟩ "QAOAVariationalExtendedParams"
      (fun lo hi _ => List.range' lo (hi - lo)) (fun n => List.replicate n 1)
      "gradient" "param_shift" ⟨1, -1, -1, -1, -1⟩ [0, 0] .omitted [7] ⟨3, 4⟩).2.2.2.1
      (Or.inl rfl) (by decide)).2
  · exact ((C5_validation (1 : ℚ) ⟨fun _ _ => 0, fun _ _ => [], fun _ => 0⟩
      ⟨1, [1], [1], [1], [1], fun a => a ++ a⟩ "QAOAVariationalStandardParams"
      (fun lo hi _ => List.range' lo (hi - lo)) (fun n => List.replicate n 1)
      "gradient" "stoch_param_shift" ⟨1, 5, -1, -1, -1⟩ [0, 0] .omitted [7] ⟨3, 4⟩).2.2.2.2.1
      rfl ⟨(5, 1), by decide, Or.inr (by decide)⟩).2
  · exact ((C5_validation (1 : ℚ) ⟨fun _ _ => 0, fun _ _ => [], fun _ => 0⟩
      ⟨1, [1], [1], [1], [1], fun a => a ++ a⟩ "QAOAVariationalStandardParams"
      (fun lo hi _ => List.range' lo (hi - lo)) (fun n => List.replicate n 1)
      "gradient" "finite_difference" ⟨1, -1, -1, -1, -1⟩ [0, 0] .omitted [7] ⟨3, 4⟩).2.2.2.2.2
      (Or.inl rfl) (Or.inl rfl) (by decide)).2

/-- On success, the masked loop's accumulated shot total is the sum of
`spsShotAdd` over the flagged items. -/
theorem runSPSLoop_shots (variance : Bool) (be : Backend K) (args : List K)
    (items : List (Bool × List K × K × Option ℤ)) (s s1 : LogState)
    (gvs : List (K × K) × ℤ)
    (h : runSPSLoop variance be args items s = (.ok gvs, s1)) :
    gvs.2 = (items.map (fun it => if it.1 then spsShotAdd it.2.2.2 else 0)).sum := by
  induction items generalizing s s1 gvs with
  | nil =>
    simp only [runSPSLoop, Prod.mk.injEq, Except.ok.injEq] at h
    rw [← h.1]
    simp
  | cons it rest ih =>
    by_cases hf : it.1
    · simp only [runSPSLoop, hf, if_true] at h
      split at h
      · simp at h
      · split at h
        · simp at h
        next gvs2 s2 heq2 =>
          simp only [Prod.mk.injEq, Except.ok.injEq] at h
          rw [← h.1]
          simp [hf, ih _ _ _ heq2]
    · simp only [runSPSLoop] at h
      rw [if_neg hf] at h
      split at h
      · simp at h
      next gvs2 s2 heq2 =>
        simp only [Prod.mk.injEq, Except.ok.injEq] at h
        rw [← h.1]
        simp [hf, ih _ _ _ heq2]

/-- A masked sum of `spsShotAdd` terms is twice the plain sum over the
selected indices (`None` entries contribute `0` on both sides). -/
theorem masked_filter_sum (l : List ℕ) (P : ℕ → Bool) (f : ℕ → Option ℤ) :
    (l.map (fun i => if P i then spsShotAdd (f i) else 0)).sum =
      2 * ((l.filter P).map (fun i => (f i).getD 0)).sum := by
  induction l with
  | nil => simp
  | cons x xs ih =>
    by_cases h : P x
    · rw [List.map_cons, List.sum_cons, if_pos h, List.filter_cons_of_pos h,
        List.map_cons, List.sum_cons, ih]
      cases hfx : f x <;> simp [spsShotAdd] <;> ring
    · rw [List.map_cons, List.sum_cons, if_neg h, List.filter_cons_of_neg h, ih]
      ring
/-- `C4`: in variance mode the returned shots-used total is
`2 * sum(allocated per-parameter shots)` for finite difference,
`2 * sum(allocated per-extended-parameter shots)` for parameter shift,
`2 * n_shots` for SPSA, and, for stochastic parameter shift,
`2 * sum(shots of the sampled extended indices only)` — unsampled gates
contribute zero shots. -/
theorem C4_shots_used (pi : K) (be : Backend K) (ps : StdParams K) (eta : K)
    (args : List K) (nSh : NShotsArg) (nList1 nList2 nList3 : List (Option ℤ))
    (t1 t2 : ℤ) (s : LogState) (nRes : List ℕ) (choose : ℕ → ℕ → ℕ → List ℕ)
    (randbits : ℕ → List ℤ) (k : ℤ) (g1 v1 g2 v2 g3 v3 g4 v4 : List K)
    (sh1 sh2 sh3 sh4 : ℤ) :
    (create_n_shots_list args.length nSh = .ok nList1 → pySumShots nList1 = .ok t1 →
      (grad_fd_func be eta true args nSh s).1 = .ok (.gradVar g1 v1 sh1) →
      sh1 = 2 * t1) ∧
    (create_n_shots_ext_list args.length (nAssociatedParams ps) nSh = .ok nList2 →
      pySumShots nList2 = .ok t2 →
      (grad_ps_func pi be ps true args nSh s).1 = .ok (.gradVar g2 v2 sh2) →
      sh2 = 2 * t2) ∧
    ((grad_spsa_func be eta randbits true args (.int k) s).1 = .ok (.gradVar g3 v3 sh3) →
      sh3 = 2 * k) ∧
    (create_n_shots_ext_list args.length (nAssociatedParams ps) nSh = .ok nList3 →
      (grad_sps_func pi be ps nRes choose true args nSh s).1 = .ok (.gradVar g4 v4 sh4) →
      sh4 = 2 * (((List.range (ps.convert_to_ext args).length).filter
          (fun i => decide (i ∈ sps_sampled ps nRes choose))).map
          (fun i => (nList3.getD i none).getD 0)).sum) := by
  refine ⟨?_, ?_, ?_, ?_⟩
  · intro h1 h2 h3
    simp only [grad_fd_func] at h3
    rw [h1] at h3
    dsimp only at h3
    split at h3
    · simp at h3
    · rw [h2] at h3
      simp only [if_true, Except.ok.injEq, GradReturn.gradVar.injEq] at h3
      exact h3.2.2.symm
  · intro h1 h2 h3
    simp only [grad_ps_func] at h3
    rcases hstd : create_n_shots_list args.length nSh with e | nl
    · rw [hstd] at h3
      simp [Except.map] at h3
    · rw [hstd] at h3
      simp only [Except.map] at h3
      rw [h1] at h3
      dsimp only at h3
      rcases hres : runShiftLoop true be (ps.convert_to_ext args)
          ((List.range (ps.convert_to_ext args).length).map
            (psShiftItem pi (coeffsList ps) (ps.convert_to_ext args) nList2)) s with ⟨r, s1⟩
      rw [hres] at h3
      cases r with
      | error e => simp at h3
      | ok gvs =>
        rw [h2] at h3
        simp only [if_true, Except.ok.injEq, GradReturn.gradVar.injEq] at h3
        exact h3.2.2.symm
  · intro h3
    simp only [grad_spsa_func] at h3
    split at h3
    · simp at h3
    · simp only [if_true, Except.ok.injEq, GradReturn.gradVar.injEq] at h3
      exact h3.2.2.symm
  · intro h1 h3
    simp only [grad_sps_func] at h3
    rcases hstd : create_n_shots_list args.length nSh with e | nl
    · rw [hstd] at h3
      simp [Except.map] at h3
    · rw [hstd] at h3
      simp only [Except.map] at h3
      rw [h1] at h3
      dsimp only at h3
      rcases hres : runSPSLoop true be (ps.convert_to_ext args)
          ((List.range (ps.convert_to_ext args).length).map (fun i =>
            (decide (i ∈ sps_sampled ps nRes choose),
              psShiftItem pi (coeffsList ps) (ps.convert_to_ext args) nList3 i))) s with ⟨r, s1⟩
      rw [hres] at h3
      cases r with
      | error e => simp at h3
      | ok gvs =>
        simp only [if_true, Except.ok.injEq, GradReturn.gradVar.injEq] at h3
        have hsh := runSPSLoop_shots true be (ps.convert_to_ext args) _ s s1 gvs hres
        rw [← h3.2.2, hsh, List.map_map]
        have hcomp : ((fun it : Bool × List K × K × Option ℤ =>
              if it.1 then spsShotAdd it.2.2.2 else 0) ∘ (fun i =>
            (decide (i ∈ sps_sampled ps nRes choose),
              psShiftItem pi (coeffsList ps) (ps.convert_to_ext args) nList3 i))) =
            (fun i => if decide (i ∈ sps_sampled ps nRes choose) then
              spsShotAdd (nList3.getD i none) else 0) := by
          funext i
          rfl
        rw [hcomp, masked_filter_sum]

/-- Witness for `C4_shots_used` at a concrete instance: two standard
parameters, `n_shots = 3` per parameter, one-outcome histograms of one shot;
finite difference reports `12 = 2*(3+3)` shots, parameter shift
`24 = 2*(3+3+3+3)` over the four extended parameters, SPSA `6 = 2*3`, and
stochastic parameter shift with full sampling `24 = 2*(3+3+3+3)`. -/
theorem C4_shots_used_witness :
    (grad_fd_func (⟨fun _ _ => 0, fun _ _ => [(0, 1)], fun _ => 0⟩ : Backend ℚ)
      1 true [0, 0] (.int 3) ⟨0, 0⟩).1 = .ok (.gradVar [0, 0] [0, 0] 12) ∧
    (grad_spsa_func (⟨fun _ _ => 0, fun _ _ => [(0, 1)], fun _ => 0⟩ : Backend ℚ)
      1 (fun n => List.replicate n 1) true [0, 0] (.int 3) ⟨0, 0⟩).1 =
      .ok (.gradVar [0, 0] [0, 0] 6) ∧
    (12 : ℤ) = 2 * 6 ∧ (24 : ℤ) = 2 * 12 ∧ (6 : ℤ) = 2 * 3 ∧ (24 : ℤ) = 2 * 12 := by
  have hfd : (grad_fd_func (⟨fun _ _ => 0, fun _ _ => [(0, 1)], fun _ => 0⟩ : Backend ℚ)
      1 true [0, 0] (.int 3) ⟨0, 0⟩).1 = .ok (.gradVar [0, 0] [0, 0] 12) := by
    norm_num [grad_fd_func, create_n_shots_list, runShiftLoop, gradientKernel,
      fun_w_variance, update_and_get_counts, countsToShotCosts, npBroadcastSub,
      npMean, npVar, smulV, vadd, vsub, nShotsKw, pyTruthy, zeroVec, pySumShots,
      List.range_succ, List.replicate_succ, List.set]
  have hps : (grad_ps_func 1 (⟨fun _ _ => 0, fun _ _ => [(0, 1)], fun _ => 0⟩ : Backend ℚ)
      ⟨1, [1], [1], [1], [1], fun a => a ++ a⟩ true [0, 0] (.int 3) ⟨0, 0⟩).1 =
      .ok (.gradVar [0, 0] [0, 0] 24) := by
    norm_num [grad_ps_func, create_n_shots_list, create_n_shots_ext_list, runShiftLoop,
      gradientKernel, fun_w_variance, update_and_get_counts, countsToShotCosts,
      npBroadcastSub, npMean, npVar, smulV, vadd, vsub, nShotsKw, pyTruthy, zeroVec,
      pySumShots, psShiftItem, coeffsList, pyListMul, nAssociatedParams, cumIdx,
      codeGroupSums, sumFamilies, pySlice, Except.map,
      List.range_succ, List.replicate_succ, List.set]
  have hspsa : (grad_spsa_func (⟨fun _ _ => 0, fun _ _ => [(0, 1)], fun _ => 0⟩ : Backend ℚ)
      1 (fun n => List.replicate n 1) true [0, 0] (.int 3) ⟨0, 0⟩).1 =
      .ok (.gradVar [0, 0] [0, 0] 6) := by
    norm_num [grad_spsa_func, gradientKernel, fun_w_variance, update_and_get_counts,
      countsToShotCosts, npBroadcastSub, npMean, npVar, smulV, vadd, vsub, nShotsKw,
      pyTruthy, List.replicate_succ]
  have hsps : (grad_sps_func 1 (⟨fun _ _ => 0, fun _ _ => [(0, 1)], fun _ => 0⟩ : Backend ℚ)
      ⟨1, [1], [1], [1], [1], fun a => a ++ a⟩ [1, 1, 1, 1]
      (fun lo hi _ => List.range' lo (hi - lo)) true [0, 0] (.int 3) ⟨0, 0⟩).1 =
      .ok (.gradVar [0, 0] [0, 0] 24) := by
    norm_num [grad_sps_func, create_n_shots_list, create_n_shots_ext_list, runSPSLoop,
      gradientKernel, fun_w_variance, update_and_get_counts, countsToShotCosts,
      npBroadcastSub, npMean, npVar, smulV, vadd, vsub, nShotsKw, pyTruthy, zeroVec,
      pySumShots, psShiftItem, coeffsList, pyListMul, nAssociatedParams, cumIdx,
      codeGroupSums, sumFamilies, pySlice, Except.map, sps_sampled, spsShotAdd,
      List.range_succ, List.replicate_succ, List.set, List.range']
  have c1 := (C4_shots_used (1 : ℚ)
    (⟨fun _ _ => 0, fun _ _ => [(0, 1)], fun _ => 0⟩ : Backend ℚ)
    ⟨1, [1], [1], [1], [1], fun a => a ++ a⟩ 1 [0, 0] (.int 3)
    [some 3, some 3] (List.replicate 4 (some 3)) (List.replicate 4 (some 3)) 6 12
    ⟨0, 0⟩ [1, 1, 1, 1] (fun lo hi _ => List.range' lo (hi - lo))
    (fun n => List.replicate n 1) 3 [0, 0] [0, 0] [0, 0] [0, 0] [0, 0] [0, 0]
    [0, 0] [0, 0] 12 24 6 24)
  have c4 := c1.2.2.2 rfl hsps
  have hS : (((List.range (((⟨1, [1], [1], [1], [1], fun a => a ++ a⟩ :
        StdParams ℚ).convert_to_ext [0, 0]).length)).filter
      (fun i => decide (i ∈ sps_sampled
        (⟨1, [1], [1], [1], [1], fun a => a ++ a⟩ : StdParams ℚ) [1, 1, 1, 1]
        (fun lo hi _ => List.range' lo (hi - lo))))).map
      (fun i => ((List.replicate 4 (some (3 : ℤ))).getD i none).getD 0)).sum = 12 := by
    decide
  rw [hS] at c4
  exact ⟨hfd, hspsa, c1.1 rfl rfl hfd, c1.2.1 rfl rfl hps, c1.2.2.1 hspsa, c4⟩

/-- A masked loop whose every flag is `true` behaves exactly like the plain
parameter-shift loop, additionally accumulating `2 * n_shots` per item. -/
theorem runSPSLoop_true (variance : Bool) (be : Backend K) (args : List K)
    (items : List (List K × K × Option ℤ)) (s : LogState) :
    runSPSLoop variance be args (items.map (fun it => (true, it))) s =
      (match runShiftLoop variance be args items s with
        | (.error e, s1) => (.error e, s1)
        | (.ok gvs, s1) =>
          (.ok (gvs, (items.map (fun it => spsShotAdd it.2.2)).sum), s1)) := by
  induction items generalizing s with
  | nil => simp [runSPSLoop, runShiftLoop]
  | cons it rest ih =>
    simp only [List.map_cons, runSPSLoop, runShiftLoop, if_true]
    rcases hk : gradientKernel variance be args it.1 it.2.1 it.2.2 s with ⟨r, sk⟩
    cases r with
    | error e => rfl
    | ok gv =>
      dsimp only
      rw [ih]
      rcases hrr : runShiftLoop variance be args rest sk with ⟨rr, sr⟩
      cases rr with
      | error e => rfl
      | ok gvs2 =>
        dsimp only
        rw [List.sum_cons]

/-- Folding Python addition with `getD` over an all-present shot list. -/
theorem foldl_add_getD_some (vals : List ℤ) (a : ℤ) :
    (vals.map some).foldl (fun acc x => acc + x.getD 0) a = a + vals.sum := by
  induction vals generalizing a with
  | nil => simp
  | cons v vs ih => simp [ih, add_assoc]

/-- `sum` over an all-present shot list succeeds with the plain sum. -/
theorem pySumShots_map_some (vals : List ℤ) :
    pySumShots (vals.map some) = .ok vals.sum := by
  simp only [pySumShots, List.all_map]
  rw [if_pos]
  · rw [foldl_add_getD_some, zero_add]
  · simp [Function.comp]

/-- Summing `spsShotAdd` over a range covering an all-present shot list gives
twice its total (indices past the list contribute nothing). -/
theorem sumShotsAux (vals : List ℤ) (N : ℕ) (h : vals.length ≤ N) :
    ((List.range N).map (fun i => spsShotAdd ((vals.map some).getD i none))).sum =
      2 * vals.sum := by
  induction vals generalizing N with
  | nil =>
    simp only [List.map_nil, List.getD_nil, spsShotAdd, List.sum_nil, mul_zero]
    clear h
    induction N with
    | zero => simp
    | succ n ihn => rw [List.range_succ, List.map_append, List.sum_append, ihn]; simp
  | cons v vs ih =>
    cases N with
    | zero => simp at h
    | succ n =>
      rw [List.range_succ_eq_map, List.map_cons, List.sum_cons, List.map_map]
      have hcomp : ((fun i => spsShotAdd (((v :: vs).map some).getD i none)) ∘ Nat.succ) =
          (fun i => spsShotAdd ((vs.map some).getD i none)) := by
        funext i
        rfl
      rw [hcomp, ih n (by simpa using h)]
      simp only [List.map_cons, List.getD_cons_zero, spsShotAdd, List.sum_cons]
      ring

theorem zipWith_replicate_some_flatten (nA : List ℕ) (rl : List ℤ) :
    (List.zipWith (fun r sh => List.replicate r (some sh)) nA rl).flatten =
      ((List.zipWith (fun r sh => List.replicate r sh) nA rl).flatten).map some := by
  induction nA generalizing rl with
  | nil => rfl
  | cons r rest ih =>
    cases rl with
    | nil => rfl
    | cons x xs =>
      simp only [List.zipWith_cons_cons, List.flatten_cons, List.map_append,
        List.map_replicate, ih]

theorem zipWith_replicate_flatten_len (nA : List ℕ) (rl : List ℤ) :
    ((List.zipWith (fun r sh => List.replicate r sh) nA rl).flatten).length ≤
      nA.sum := by
  induction nA generalizing rl with
  | nil => simp
  | cons r rest ih =>
    cases rl with
    | nil => simp
    | cons x xs =>
      simp only [List.zipWith_cons_cons, List.flatten_cons, List.length_append,
        List.length_replicate, List.sum_cons]
      exact Nat.add_le_add_left (ih xs) r

/-- The extended shot allocator yields an all-present list (of length at most
the extended-parameter count) whenever the shot specification is not absent. -/
theorem create_ext_some (nParams : ℕ) (nAssoc : List ℕ) (nSh : NShotsArg)
    (hn : nSh ≠ .omitted) (out : List (Option ℤ))
    (h : create_n_shots_ext_list nParams nAssoc nSh = .ok out) :
    ∃ vals : List ℤ, out = vals.map some ∧ vals.length ≤ nAssoc.sum := by
  cases nSh with
  | omitted => exact absurd rfl hn
  | int n =>
    refine ⟨List.replicate nAssoc.sum n, ?_, by simp⟩
    simp only [create_n_shots_ext_list, Except.ok.injEq] at h
    rw [← h, List.map_replicate]
  | list l =>
    simp only [create_n_shots_ext_list] at h
    split at h
    · split at h
      · simp only [Except.ok.injEq] at h
        refine ⟨(List.zipWith (fun r sh => List.replicate r sh) nAssoc
          (repeatHalves l)).flatten, ?_, zipWith_replicate_flatten_len _ _⟩
        rw [← h]
        exact zipWith_replicate_some_flatten _ _
      · exact absurd h (by simp)
    · exact absurd h (by simp)

/-- Validating the all-`-1` sample sizes succeeds and resolves each family to
its maximum. -/
theorem grad_sps_validate_full (ps : StdParams K) :
    grad_sps_validate ps ⟨-1, -1, -1, -1⟩ = .ok (familyMaxes ps) := by
  have hc : ∀ y : ℕ, (-1 : ℤ) ≤ y :=
    fun y => le_trans (by norm_num) (Int.natCast_nonneg y)
  simp [grad_sps_validate, spsSizeList, familyMaxes, hc]

/-- The stochastic and the full parameter-shift estimators agree whenever the
random draw covers every extended index (which holds for a draw of each full
group without replacement). -/
theorem sps_ps_core (pi : K) (be : Backend K) (ps : StdParams K)
    (choose : ℕ → ℕ → ℕ → List ℕ) (args : List K) (nSh : NShotsArg)
    (s : LogState) (variance : Bool)
    (hcov : (List.range (ps.convert_to_ext args).length).all
      (fun i => decide (i ∈ sps_sampled ps (familyMaxes ps) choose)) = true)
    (hlen : (nAssociatedParams ps).sum = (ps.convert_to_ext args).length)
    (hvs : variance = true → nSh ≠ NShotsArg.omitted) :
    grad_sps_func pi be ps (familyMaxes ps) choose variance args nSh s =
      grad_ps_func pi be ps variance args nSh s := by
  simp only [grad_sps_func, grad_ps_func]
  rcases hse : (if variance then Except.map (fun _ => ())
      (create_n_shots_list args.length nSh) else Except.ok ()) with e | u
  · rfl
  · rcases hce : create_n_shots_ext_list args.length (nAssociatedParams ps) nSh
      with e2 | nList
    · rfl
    · dsimp only
      have hcov' := List.all_eq_true.mp hcov
      have hitems : (List.range (ps.convert_to_ext args).length).map (fun i =>
          (decide (i ∈ sps_sampled ps (familyMaxes ps) choose),
            psShiftItem pi (coeffsList ps) (ps.convert_to_ext args) nList i)) =
          ((List.range (ps.convert_to_ext args).length).map
            (psShiftItem pi (coeffsList ps) (ps.convert_to_ext args) nList)).map
            (fun it => (true, it)) := by
        rw [List.map_map]
        refine List.map_congr_left (fun i hi => ?_)
        have := hcov' i hi
        simp only [Function.comp]
        rw [this]
      rw [hitems, runSPSLoop_true]
      rcases hrs : runShiftLoop variance be (ps.convert_to_ext args)
          ((List.range (ps.convert_to_ext args).length).map
            (psShiftItem pi (coeffsList ps) (ps.convert_to_ext args) nList)) s
        with ⟨r, s1⟩
      cases r with
      | error e => rfl
      | ok gvs =>
        cases variance with
        | false => rfl
        | true =>
          obtain ⟨vals, hv1, hv2⟩ :=
            create_ext_some args.length (nAssociatedParams ps) nSh (hvs rfl) nList hce
          subst hv1
          dsimp only
          rw [pySumShots_map_some]
          dsimp only
          rw [List.map_map]
          have hcomp : ((fun it : List K × K × Option ℤ => spsShotAdd it.2.2) ∘
              psShiftItem pi (coeffsList ps) (ps.convert_to_ext args) (vals.map some)) =
              (fun i => spsShotAdd ((vals.map some).getD i none)) := by
            funext i
            rfl
          rw [hcomp, sumShotsAux vals (ps.convert_to_ext args).length (hlen ▸ hv2)]

/-- `C3`: with all four stochastic sample sizes `-1`, validation resolves
each family to its maximum, a full without-replacement draw covers every
extended index, and then the stochastic parameter-shift estimator returns
gradient (and, when shots are specified, variance and shots-used) identical
to the full parameter-shift estimator on the same arguments. -/
theorem C3_sps_equals_ps (pi : K) (be : Backend K) (ps : StdParams K)
    (choose : ℕ → ℕ → ℕ → List ℕ) (args : List K) (nSh : NShotsArg) (s : LogState)
    (hcov : (List.range (ps.convert_to_ext args).length).all
      (fun i => decide (i ∈ sps_sampled ps (familyMaxes ps) choose)) = true)
    (hlen : (nAssociatedParams ps).sum = (ps.convert_to_ext args).length) :
    grad_sps_validate ps ⟨-1, -1, -1, -1⟩ = .ok (familyMaxes ps) ∧
    grad_sps_func pi be ps (familyMaxes ps) choose false args nSh s =
      grad_ps_func pi be ps false args nSh s ∧
    (nSh ≠ .omitted →
      grad_sps_func pi be ps (familyMaxes ps) choose true args nSh s =
        grad_ps_func pi be ps true args nSh s) :=
  ⟨grad_sps_validate_full ps,
   sps_ps_core pi be ps choose args nSh s false hcov hlen (by simp),
   fun hn => sps_ps_core pi be ps choose args nSh s true hcov hlen (fun _ => hn)⟩

/-- Witness for `C3_sps_equals_ps` at a concrete instance: one layer, one
gate per family, arguments `[1, 2]`, three shots per parameter, and the
full-range without-replacement draw; the stochastic estimator's output (in
variance mode, so gradient, variance and shots-used) coincides with the full
parameter shift. -/
theorem C3_sps_equals_ps_witness :
    ((List.range (((⟨1, [1], [1], [1], [1], fun a => a ++ a⟩ : StdParams ℚ).convert_to_ext
        [1, 2]).length)).all (fun i => decide (i ∈ sps_sampled
      (⟨1, [1], [1], [1], [1], fun a => a ++ a⟩ : StdParams ℚ)
      (familyMaxes (⟨1, [1], [1], [1], [1], fun a => a ++ a⟩ : StdParams ℚ))
      (fun lo hi _ => List.range' lo (hi - lo))))) = true ∧
    (nAssociatedParams (⟨1, [1], [1], [1], [1], fun a => a ++ a⟩ : StdParams ℚ)).sum =
      ((⟨1, [1], [1], [1], [1], fun a => a ++ a⟩ : StdParams ℚ).convert_to_ext
        [1, 2]).length ∧
    grad_sps_validate (⟨1, [1], [1], [1], [1], fun a => a ++ a⟩ : StdParams ℚ)
      ⟨-1, -1, -1, -1⟩ =
      .ok (familyMaxes (⟨1, [1], [1], [1], [1], fun a => a ++ a⟩ : StdParams ℚ)) ∧
    grad_sps_func (1 : ℚ) ⟨fun a _ => a.sum, fun _ _ => [(0, 1)], fun n => (n : ℚ)⟩
      (⟨1, [1], [1], [1], [1], fun a => a ++ a⟩ : StdParams ℚ)
      (familyMaxes (⟨1, [1], [1], [1], [1], fun a => a ++ a⟩ : StdParams ℚ))
      (fun lo hi _ => List.range' lo (hi - lo)) true [1, 2] (.int 3) ⟨0, 0⟩ =
      grad_ps_func (1 : ℚ) ⟨fun a _ => a.sum, fun _ _ => [(0, 1)], fun n => (n : ℚ)⟩
        (⟨1, [1], [1], [1], [1], fun a => a ++ a⟩ : StdParams ℚ) true [1, 2]
        (.int 3) ⟨0, 0⟩ := by
  have h1 : ((List.range (((⟨1, [1], [1], [1], [1], fun a => a ++ a⟩ :
      StdParams ℚ).convert_to_ext [1, 2]).length)).all (fun i => decide (i ∈ sps_sampled
      (⟨1, [1], [1], [1], [1], fun a => a ++ a⟩ : StdParams ℚ)
      (familyMaxes (⟨1, [1], [1], [1], [1], fun a => a ++ a⟩ : StdParams ℚ))
      (fun lo hi _ => List.range' lo (hi - lo))))) = true := by decide
  have h2 : (nAssociatedParams (⟨1, [1], [1], [1], [1], fun a => a ++ a⟩ :
      StdParams ℚ)).sum = ((⟨1, [1], [1], [1], [1], fun a => a ++ a⟩ :
      StdParams ℚ).convert_to_ext [1, 2]).length := rfl
  have h3 := C3_sps_equals_ps (1 : ℚ)
    ⟨fun a _ => a.sum, fun _ _ => [(0, 1)], fun n => (n : ℚ)⟩
    (⟨1, [1], [1], [1], [1], fun a => a ++ a⟩ : StdParams ℚ)
    (fun lo hi _ => List.range' lo (hi - lo)) [1, 2] (.int 3) ⟨0, 0⟩ h1 h2
  exact ⟨h1, h2, h3.1, h3.2.2 (by decide)⟩

end OQDeriv
